import Mathlib

/-!
# The building viewer of `App.js`

A shallow embedding of the single component `App` of `src/App.js`: the refs and the
React state cell become the fields of `AppState`, every callback becomes a function on
`AppState`, and the closures a render creates take the render-time value of
`selectedLayout` as an explicit argument.  Numbers are exact rationals.

A mesh refers to a material and the colour belongs to the material, so meshes that share
a material share its colour.  Property lookup on the object literal `layoutImages` also
finds the members of `Object.prototype`.

The three.js raycaster, `Vector3.length` and the members of `Object.prototype` are not
code of the component; they are parameters (`Env.intersectObjects`, the `length` argument
of `onLoad`, `Env.objectPrototype`).  The view frustum of the perspective camera is
`Camera.sees`, a test in rational arithmetic that `Camera.sees_iff_real` relates to the
usual formulation over the reals.
-/

namespace App

/-! ## Data model -/

/-- The two image modules imported at the top of `App.js`. -/
inductive LayoutImage where
  | layout1
  | layout2
deriving DecidableEq, Repr

/-- A value of the state variable `selectedLayout` other than `null`: one of the two
images (a module id, which is truthy), or any other JavaScript value, of which only the
truthiness and an identifying tag are kept. -/
inductive Layout where
  | image (i : LayoutImage)
  | foreign (truthy : Bool) (tag : Nat)
deriving DecidableEq, Repr

/-- The truthiness of a value of `selectedLayout`; `none` is `null`. -/
def truthy : Option Layout → Bool
  | none => false
  | some (Layout.image _) => true
  | some (Layout.foreign t _) => t

/-- What a property lookup can find: a value that is not a function, or a function, given
by the result of calling it with one argument (`none` when the call throws). -/
inductive Member where
  | value (v : Option Layout)
  | function (call : Option Layout → Option (Option Layout))

/-- The truthiness of a member; a function is truthy. -/
def Member.truthy : Member → Bool
  | Member.value v => App.truthy v
  | Member.function _ => true

/-- A `THREE.Vector3` with exact rational components. -/
structure Vector3 where
  x : ℚ
  y : ℚ
  z : ℚ
deriving DecidableEq

/-- A `THREE.Box3`: the two extreme corners of an axis-aligned box. -/
structure Box3 where
  min : Vector3
  max : Vector3
deriving DecidableEq

/-- A pickable surface: a named mesh and the index of its material (`mesh.name`,
`mesh.material`).  Two meshes with the same index share one material object. -/
structure Mesh where
  name : String
  material : Nat
deriving DecidableEq

/-- The loaded scene-graph subtree `gltf.scene`: its meshes (the hierarchy flattened; a
mesh is identified by its index), the colours of its materials (`material.color` as a hex
number), its `position`, its `rotation.y`, and the bounding box of its geometry relative
to `position`. -/
structure Model where
  children : List Mesh
  materials : List Nat
  position : Vector3
  rotationY : ℚ
  geometry : Box3
deriving DecidableEq

/-- A `THREE.PerspectiveCamera`: the constructor arguments, the position and the point
last passed to `lookAt`. -/
structure Camera where
  fov : ℚ
  aspect : ℚ
  near : ℚ
  far : ℚ
  position : Vector3
  target : Vector3
deriving DecidableEq

/-- The refs and the state cell of the component (`App.js` lines 18-26).  `sceneRef`
records whether the scene has been created; `originalMaterial` holds the saved colour of
the wrapper object `{ color }`; `crashed` records that an updater passed to
`setSelectedLayout` threw, which unmounts the component. -/
structure AppState where
  modelRef : Option Model
  cameraRef : Option Camera
  sceneRef : Bool
  selectedLayout : Option Layout
  selectedMesh : Option Nat
  originalMaterial : Option Nat
  rotateY : ℚ
  rotateX : ℚ
  crashed : Bool
deriving DecidableEq

/-- The `gesture` argument of the pan handlers. -/
structure Gesture where
  dx : ℚ
  dy : ℚ
deriving DecidableEq

/-- The `nativeEvent` of a touch. -/
structure TouchEvent where
  locationX : ℚ
  locationY : ℚ
deriving DecidableEq

/-- What the component takes from its surroundings: the window size of line 15; the
three.js raycaster, which for a camera, a model and a point in normalized device
coordinates returns the indices of the intersected meshes, nearest first; and the members
of `Object.prototype`, by property name. -/
structure Env where
  width : ℚ
  height : ℚ
  intersectObjects : Camera → Model → ℚ → ℚ → List Nat
  objectPrototype : String → Option Member

/-- The highlight colour of line 142. -/
def highlight : Nat := 0xffff00

/-- The property lookup `layoutImages[name]` on the object literal of lines 29-33: the
literal's own keys first, then the prototype chain; `none` is `undefined`. -/
def layoutImages (env : Env) (name : String) : Option Member :=
  if name = "o_glass" then some (Member.value (some (Layout.image LayoutImage.layout1)))
  else if name = "o_concrete_01" then
    some (Member.value (some (Layout.image LayoutImage.layout2)))
  else env.objectPrototype name

/-! ## Meshes and materials of a model -/

/-- Read the colour of material `k`. -/
def colorAt : List Nat → Nat → Option Nat
  | [], _ => none
  | c :: _, 0 => some c
  | _ :: cs, k + 1 => colorAt cs k

/-- Overwrite the colour of material `k` (`color.copy`, `color.set`). -/
def setColorAt : List Nat → Nat → Nat → List Nat
  | [], _, _ => []
  | _ :: cs, 0, c => c :: cs
  | c0 :: cs, k + 1, c => c0 :: setColorAt cs k c

/-- Read `children[i].name`. -/
def nameAt : List Mesh → Nat → Option String
  | [], _ => none
  | m :: _, 0 => some m.name
  | _ :: ms, i + 1 => nameAt ms i

/-- Read the material index of `children[i]`. -/
def materialAt : List Mesh → Nat → Option Nat
  | [], _ => none
  | m :: _, 0 => some m.material
  | _ :: ms, i + 1 => materialAt ms i

/-- The material index of mesh `i` of a model. -/
def Model.material (model : Model) (i : Nat) : Option Nat :=
  materialAt model.children i

/-- Overwrite `children[i].material.color`: the write goes to the material of mesh `i`
and so recolours every mesh with that material. -/
def Model.setColor (model : Model) (i c : Nat) : Model :=
  match model.material i with
  | some k => { model with materials := setColorAt model.materials k c }
  | none => model

/-- Read `children[i].material.color` (`0` when there is no such mesh or material). -/
def Model.color (model : Model) (i : Nat) : Nat :=
  ((model.material i).bind (colorAt model.materials)).getD 0

/-- The name of mesh `i` of a model. -/
def Model.name (model : Model) (i : Nat) : String :=
  (nameAt model.children i).getD ""

/-- Every mesh of the model has a material of the model. -/
def Model.WellFormed (model : Model) : Prop :=
  ∀ mesh ∈ model.children, mesh.material < model.materials.length

/-! ## Vectors and boxes -/

/-- The method `Vector3.sub`. -/
def Vector3.sub (a b : Vector3) : Vector3 := ⟨a.x - b.x, a.y - b.y, a.z - b.z⟩

/-- The method `Vector3.add`. -/
def Vector3.add (a b : Vector3) : Vector3 := ⟨a.x + b.x, a.y + b.y, a.z + b.z⟩

/-- The scalar product. -/
def Vector3.dot (a b : Vector3) : ℚ := a.x * b.x + a.y * b.y + a.z * b.z

/-- The vector product. -/
def Vector3.cross (a b : Vector3) : Vector3 :=
  ⟨a.y * b.z - a.z * b.y, a.z * b.x - a.x * b.z, a.x * b.y - a.y * b.x⟩

/-- The squared Euclidean length (`Vector3.lengthSq`). -/
def Vector3.lengthSq (a : Vector3) : ℚ := a.dot a

/-- The method `Box3.isEmpty`. -/
def Box3.isEmpty (b : Box3) : Bool :=
  decide (b.max.x < b.min.x) || decide (b.max.y < b.min.y) || decide (b.max.z < b.min.z)

/-- The method `Box3.getSize`. -/
def Box3.getSize (b : Box3) : Vector3 :=
  if b.isEmpty then ⟨0, 0, 0⟩ else b.max.sub b.min

/-- The method `Box3.getCenter`. -/
def Box3.getCenter (b : Box3) : Vector3 :=
  if b.isEmpty then ⟨0, 0, 0⟩
  else ⟨(b.min.x + b.max.x) * (1 / 2), (b.min.y + b.max.y) * (1 / 2),
        (b.min.z + b.max.z) * (1 / 2)⟩

/-- The world bounding box `new Box3().setFromObject(model)` of a model: the box of its
geometry moved by the model's position. -/
def Box3.setFromObject (model : Model) : Box3 :=
  ⟨model.geometry.min.add model.position, model.geometry.max.add model.position⟩

/-- The eight corners of a box. -/
def Box3.corners (b : Box3) : List Vector3 :=
  [⟨b.min.x, b.min.y, b.min.z⟩, ⟨b.min.x, b.min.y, b.max.z⟩,
   ⟨b.min.x, b.max.y, b.min.z⟩, ⟨b.min.x, b.max.y, b.max.z⟩,
   ⟨b.max.x, b.min.y, b.min.z⟩, ⟨b.max.x, b.min.y, b.max.z⟩,
   ⟨b.max.x, b.max.y, b.min.z⟩, ⟨b.max.x, b.max.y, b.max.z⟩]

/-! ## The view frustum -/

/-- Decides `A ≤ B * tan² 22.5°` for `0 ≤ B` in rational arithmetic.  Since
`tan² 22.5° = 3 - 2 √2`, the inequality reads `2 √2 B ≤ 3 B - A`, which holds exactly when
`3 B - A` is nonnegative and its square is at least `8 B²`. -/
def leTanSq (A B : ℚ) : Bool :=
  decide (A ≤ 3 * B) && decide (8 * B ^ 2 ≤ (3 * B - A) ^ 2)

/-- The viewing direction of a camera, not normalized. -/
def Camera.forward (c : Camera) : Vector3 := c.target.sub c.position

/-- The camera's right axis, not normalized; `camera.up` is `(0, 1, 0)`. -/
def Camera.right (c : Camera) : Vector3 := c.forward.cross ⟨0, 1, 0⟩

/-- The camera's upward axis, not normalized. -/
def Camera.upward (c : Camera) : Vector3 := c.right.cross c.forward

/-- The point `p` lies inside the view frustum of a `PerspectiveCamera` with a vertical
field of view of 45 degrees.  With `q = p - position`, depth `q·F / |F|` along the viewing
direction `F`, the point is inside when the depth is between `near` and `far`, the offset
`|q·U| / |U|` along the upward axis is at most `depth * tan 22.5°` and the offset
`|q·R| / |R|` along the right axis is at most `depth * tan 22.5° * aspect`.  The three
conditions are compared after squaring, which keeps them rational. -/
def Camera.sees (c : Camera) (p : Vector3) : Bool :=
  let q := p.sub c.position
  let d := q.dot c.forward
  decide (0 ≤ d) &&
  decide (c.near ^ 2 * c.forward.lengthSq ≤ d ^ 2) &&
  decide (d ^ 2 ≤ c.far ^ 2 * c.forward.lengthSq) &&
  leTanSq ((q.dot c.upward) ^ 2 * c.forward.lengthSq) (d ^ 2 * c.upward.lengthSq) &&
  leTanSq ((q.dot c.right) ^ 2 * c.forward.lengthSq)
    (d ^ 2 * c.right.lengthSq * c.aspect ^ 2)

/-! ## Callbacks -/

/-- The state before the first render: `useRef()`, `useState(null)`, `useRef(0)`. -/
def initialState : AppState :=
  { modelRef := none, cameraRef := none, sceneRef := false, selectedLayout := none,
    selectedMesh := none, originalMaterial := none, rotateY := 0, rotateX := 0,
    crashed := false }

/-- The synchronous part of `onContextCreate` (lines 53-66): create the scene and the
camera for a drawing buffer of the given size. -/
def onContextCreate (s : AppState) (drawingBufferWidth drawingBufferHeight : ℚ) : AppState :=
  { s with
    sceneRef := true
    cameraRef := some
      { fov := 45, aspect := drawingBufferWidth / drawingBufferHeight, near := 0.1,
        far := 1000, position := ⟨0, 0, 0⟩, target := ⟨0, 0, -1⟩ } }

/-- The success callback of `loader.load` (lines 82-94).  `length` is the library
function `Vector3.length`. -/
def onLoad (length : Vector3 → ℚ) (s : AppState) (gltf : Model) : AppState :=
  let model := gltf
  let box := Box3.setFromObject model
  let size := length box.getSize
  let center := box.getCenter
  let model := { model with position := model.position.sub center }
  { s with
    modelRef := some model
    cameraRef := s.cameraRef.map fun camera =>
      { camera with position := ⟨0, 0, size * 1.5⟩, target := ⟨0, -0.5, 0⟩ } }

/-- One frame of the animation loop (lines 102-109). -/
def animate (s : AppState) : AppState :=
  match s.modelRef with
  | some model => { s with modelRef := some { model with rotationY := s.rotateY } }
  | none => s

/-- Lines 117-128 of `handleTouch`: convert the touch point to normalized device
coordinates and intersect the ray through it with the meshes of the model. -/
def raycast (env : Env) (camera : Camera) (model : Model) (event : TouchEvent) : List Nat :=
  let x := (event.locationX / env.width) * 2 - 1
  let y := -(event.locationY / env.height) * 2 + 1
  env.intersectObjects camera model x y

/-- The setter `setSelectedLayout` of `useState`: a value that is not a function becomes
the state; a function is called with the current state and its result becomes the state;
when that call throws, the render fails and the component is unmounted. -/
def setSelectedLayout (s : AppState) : Member → AppState
  | Member.value v => { s with selectedLayout := v }
  | Member.function call =>
    match call s.selectedLayout with
    | some v => { s with selectedLayout := v }
    | none => { s with crashed := true }

/-- The function `handleTouch` (lines 114-148) of a render in which the state variable
has the value `selectedLayout`; the refs are read from the current state. -/
def handleTouch (env : Env) (selectedLayout : Option Layout) (s : AppState)
    (event : TouchEvent) : AppState :=
  match s.modelRef, s.cameraRef, s.sceneRef, truthy selectedLayout with
  | some model, some camera, true, false =>
    let intersects := raycast env camera model event
    match intersects with
    | [] => s
    | mesh :: _ =>
      let restored :=
        match s.selectedMesh, s.originalMaterial with
        | some previous, some color => model.setColor previous color
        | _, _ => model
      let saved := restored.color mesh
      let highlighted := restored.setColor mesh highlight
      let s1 : AppState :=
        { s with
          modelRef := some highlighted
          selectedMesh := some mesh
          originalMaterial := some saved }
      match layoutImages env (model.name mesh) with
      | some member => if member.truthy then setSelectedLayout s1 member else s1
      | none => s1
  | _, _, _, _ => s

/-- The function `closeLayout` (lines 150-158). -/
def closeLayout (s : AppState) : AppState :=
  let restored :=
    match s.modelRef, s.selectedMesh, s.originalMaterial with
    | some model, some mesh, some color => some (model.setColor mesh color)
    | m, _, _ => m
  { s with
    modelRef := restored
    selectedLayout := none
    selectedMesh := none
    originalMaterial := none }

/-- The handler `onPanResponderMove` (lines 38-42) of a render in which the state
variable has the value `selectedLayout`. -/
def onPanResponderMove (selectedLayout : Option Layout) (s : AppState)
    (gesture : Gesture) : AppState :=
  match truthy selectedLayout with
  | false => { s with rotateY := s.rotateY + gesture.dx * 0.0002 }
  | true => s

/-- The test of line 45: the release counts as a tap. -/
def isTap (gesture : Gesture) : Bool :=
  decide (|gesture.dx| < 5) && decide (|gesture.dy| < 5)

/-- The handler `onPanResponderRelease` (lines 43-48) of a render in which the state
variable has the value `selectedLayout`. -/
def onPanResponderRelease (env : Env) (selectedLayout : Option Layout) (s : AppState)
    (evt : TouchEvent) (gesture : Gesture) : AppState :=
  if isTap gesture then handleTouch env selectedLayout s evt else s

/-- The value of the state variable in the first render: `useState(null)`. -/
def firstRender : Option Layout := initialState.selectedLayout

/-- The move handler the component installs.  `useRef(PanResponder.create(...)).current`
(lines 35-50) keeps the responder of the first render, so the handler sees that render's
`selectedLayout`. -/
def panResponderMove (s : AppState) (gesture : Gesture) : AppState :=
  onPanResponderMove firstRender s gesture

/-- The release handler the component installs; it calls the first render's
`handleTouch`. -/
def panResponderRelease (env : Env) (s : AppState) (evt : TouchEvent) (gesture : Gesture) :
    AppState :=
  onPanResponderRelease env firstRender s evt gesture

/-! ## Runs of the component -/

/-- What can happen to a mounted component. -/
inductive Event where
  | frame
  | move (gesture : Gesture)
  | release (evt : TouchEvent) (gesture : Gesture)
  | pressClose

/-- The effect of one event on a mounted component.  The close button is mounted only
while `selectedLayout` is truthy (line 175). -/
def dispatch (env : Env) (s : AppState) : Event → AppState
  | Event.frame => animate s
  | Event.move gesture => panResponderMove s gesture
  | Event.release evt gesture => panResponderRelease env s evt gesture
  | Event.pressClose => if truthy s.selectedLayout then closeLayout s else s

/-- The effect of one event; a crashed component handles none. -/
def step (env : Env) (s : AppState) (e : Event) : AppState :=
  if s.crashed then s else dispatch env s e

/-- The effect of a sequence of events. -/
def run (env : Env) (s : AppState) (events : List Event) : AppState :=
  events.foldl (step env) s

/-- The raycaster returns meshes of the model it is given. -/
def Env.WellFormed (env : Env) : Prop :=
  ∀ camera model x y, ∀ i ∈ env.intersectObjects camera model x y, i < model.children.length

/-- The states the component can be in, indexed by the model as it was handed to the
load callback (`none` while nothing is loaded).  The context is created once, the model is
loaded once, and the loader gives every mesh a material. -/
inductive Reachable (env : Env) (length : Vector3 → ℚ) : Option Model → AppState → Prop
  | init : Reachable env length none initialState
  | context {s : AppState} (w h : ℚ) :
      Reachable env length none s → s.cameraRef = none →
      Reachable env length none (onContextCreate s w h)
  | load {s : AppState} (gltf : Model) :
      Reachable env length none s → s.cameraRef ≠ none → gltf.WellFormed →
      Reachable env length (some gltf) (onLoad length s gltf)
  | step {o : Option Model} {s : AppState} (e : Event) :
      Reachable env length o s → Reachable env length o (step env s e)

/-- The invariant of the highlight bookkeeping, relative to the model `orig` as it was
loaded: nothing is selected before the load; afterwards the meshes are those that were
loaded, the material of the selected mesh (if any) carries the highlight colour while its
loaded colour is saved, and every other material has its loaded colour. -/
def Inv (orig : Option Model) (s : AppState) : Prop :=
  match orig, s.modelRef with
  | none, none =>
      s.selectedMesh = none ∧ s.originalMaterial = none ∧ s.selectedLayout = none ∧
      (s.cameraRef ≠ none → s.sceneRef = true)
  | some g, some model =>
      s.cameraRef ≠ none ∧ s.sceneRef = true ∧ g.WellFormed ∧
      model.children = g.children ∧
      model.materials.length = g.materials.length ∧
      (match s.selectedMesh, s.originalMaterial with
       | none, none => ∀ k, colorAt model.materials k = colorAt g.materials k
       | some m, some c =>
           ∃ k, g.material m = some k ∧ colorAt model.materials k = some highlight ∧
             colorAt g.materials k = some c ∧
             ∀ j, j ≠ k → colorAt model.materials j = colorAt g.materials j
       | _, _ => False)
  | _, _ => False

/-- The model is loaded and every corner of its world bounding box is inside the view
frustum of the camera. -/
def InView (s : AppState) : Prop :=
  ∃ model camera, s.modelRef = some model ∧ s.cameraRef = some camera ∧
    ∀ p ∈ (Box3.setFromObject model).corners, camera.sees p = true

/-! ## Small buildings -/

/-- A model with two mapped surfaces and one unmapped surface, each with a material of
its own. -/
def demoModel : Model :=
  { children := [⟨"o_glass", 0⟩, ⟨"o_concrete_01", 1⟩, ⟨"o_roof", 2⟩]
    materials := [0x88ccff, 0x808080, 0x552200]
    position := ⟨0, 0, 0⟩
    rotationY := 0
    geometry := ⟨⟨0, 0, 0⟩, ⟨8, 4, 1⟩⟩ }

/-- The same building with one material of colour `0x808080` shared by the glass and the
concrete; the roof has a material of its own. -/
def sharedModel : Model :=
  { demoModel with
    children := [⟨"o_glass", 0⟩, ⟨"o_concrete_01", 0⟩, ⟨"o_roof", 1⟩]
    materials := [0x808080, 0x552200] }

/-- The same building with one material of colour `0x808080` shared by the glass and the
roof; the concrete has a material of its own. -/
def sharedRoofModel : Model :=
  { demoModel with
    children := [⟨"o_glass", 0⟩, ⟨"o_concrete_01", 1⟩, ⟨"o_roof", 0⟩]
    materials := [0x808080, 0x552200] }

/-- A building whose first two meshes are named after members of `Object.prototype`. -/
def protoModel : Model :=
  { demoModel with
    children := [⟨"constructor", 0⟩, ⟨"hasOwnProperty", 1⟩, ⟨"o_roof", 2⟩] }

/-- Some members of `Object.prototype`, as `setSelectedLayout` meets them: `constructor`
is the function `Object`, which returns an object; `toString` returns a string when called
without a receiver; `hasOwnProperty` and `valueOf` throw a `TypeError` when called without
a receiver; `__proto__` is the prototype object itself. -/
def objectPrototype (name : String) : Option Member :=
  if name = "constructor" then
    some (Member.function fun _ => some (some (Layout.foreign true 0)))
  else if name = "__proto__" then some (Member.value (some (Layout.foreign true 1)))
  else if name = "toString" then
    some (Member.function fun _ => some (some (Layout.foreign true 2)))
  else if name = "hasOwnProperty" then some (Member.function fun _ => none)
  else if name = "valueOf" then some (Member.function fun _ => none)
  else none

/-- A window of 400 by 800 points and a raycaster that splits the screen into four
vertical bands: the leftmost band hits nothing, the next three hit mesh 0, 1 and 2. -/
def demoEnv : Env :=
  { width := 400
    height := 800
    intersectObjects := fun _ model x _ =>
      (if x < -1 / 2 then [] else if x < 0 then [0] else if x < 1 / 2 then [1] else [2]).filter
        fun i => decide (i < model.children.length)
    objectPrototype := objectPrototype }

/-- A stand-in for `Vector3.length` that is exact on the size of `demoModel`. -/
def demoLength (_ : Vector3) : ℚ := 9

/-- A touch in the band of mesh `i` of `demoEnv` (`i = 0` is the empty band). -/
def touchBand (i : ℚ) : TouchEvent := ⟨100 * i + 50, 400⟩

/-- The viewer with `demoModel` loaded and nothing selected. -/
def demoLoaded : AppState :=
  onLoad demoLength (onContextCreate initialState 400 800) demoModel

/-- The viewer after a tap on the glass surface: the overlay shows layout 1. -/
def demoOpen : AppState :=
  panResponderRelease demoEnv demoLoaded (touchBand 1) ⟨0, 0⟩

/-- The viewer after a tap on the roof, which has no layout: highlighted, no overlay. -/
def demoRoof : AppState :=
  panResponderRelease demoEnv demoLoaded (touchBand 3) ⟨0, 0⟩

/-- The model of `demoLoaded`: `demoModel` moved so that its box is centred. -/
def demoCentered : Model :=
  { demoModel with position := ⟨-4, -2, -1 / 2⟩ }

/-- The camera of `demoLoaded`. -/
def demoCamera : Camera :=
  { fov := 45, aspect := 1 / 2, near := 0.1, far := 1000, position := ⟨0, 0, 27 / 2⟩,
    target := ⟨0, -0.5, 0⟩ }

/-- The viewer with `sharedModel` loaded and nothing selected. -/
def sharedLoaded : AppState :=
  onLoad demoLength (onContextCreate initialState 400 800) sharedModel

/-- The viewer with `sharedModel` after one tap on the glass. -/
def sharedOpen : AppState :=
  panResponderRelease demoEnv sharedLoaded (touchBand 1) ⟨0, 0⟩

/-- The viewer with `sharedRoofModel` loaded and nothing selected. -/
def sharedRoofLoaded : AppState :=
  onLoad demoLength (onContextCreate initialState 400 800) sharedRoofModel

/-- The viewer with `sharedRoofModel` after one tap on the roof: the roof is selected and
no overlay is open. -/
def sharedRoofTapped : AppState :=
  panResponderRelease demoEnv sharedRoofLoaded (touchBand 3) ⟨0, 0⟩

/-- The viewer with `protoModel` loaded and nothing selected. -/
def protoLoaded : AppState :=
  onLoad demoLength (onContextCreate initialState 400 800) protoModel

/-- A model a thousand times smaller than `demoModel`. -/
def tinyModel : Model :=
  { demoModel with geometry := ⟨⟨0, 0, 0⟩, ⟨8 / 1000, 4 / 1000, 1 / 1000⟩⟩ }

/-- A stand-in for `Vector3.length` that is exact on the size of `tinyModel`. -/
def tinyLength (_ : Vector3) : ℚ := 9 / 1000

/-- The viewer with `tinyModel` loaded into a square drawing buffer. -/
def tinyLoaded : AppState :=
  onLoad tinyLength (onContextCreate initialState 800 800) tinyModel

/-- A cube of edge 10; the length of its diagonal, the square root of 300, is not
rational. -/
def cubeModel : Model :=
  { demoModel with geometry := ⟨⟨-3, 0, 2⟩, ⟨7, 10, 12⟩⟩ }

/-- A stand-in for `Vector3.length`: the diagonal of `cubeModel` rounded to three
decimals. -/
def cubeLength (_ : Vector3) : ℚ := 17321 / 1000

/-- The viewer with `cubeModel` loaded into a landscape drawing buffer. -/
def cubeLoaded : AppState :=
  onLoad cubeLength (onContextCreate initialState 800 400) cubeModel

end App

/-! # Theorems -/

namespace App

/-! ## Reading and writing material colours -/

theorem length_setColorAt (cs : List Nat) (k c : Nat) :
    (setColorAt cs k c).length = cs.length := by
  induction cs generalizing k with
  | nil => simp [setColorAt]
  | cons c0 cs ih => cases k <;> simp [setColorAt, ih]

theorem colorAt_setColorAt_self (cs : List Nat) (k c : Nat) (h : k < cs.length) :
    colorAt (setColorAt cs k c) k = some c := by
  induction cs generalizing k with
  | nil => simp at h
  | cons c0 cs ih =>
    cases k with
    | zero => simp [setColorAt, colorAt]
    | succ k => simpa [setColorAt, colorAt] using ih k (by simpa using h)

theorem colorAt_setColorAt_ne (cs : List Nat) (k c j : Nat) (h : j ≠ k) :
    colorAt (setColorAt cs k c) j = colorAt cs j := by
  induction cs generalizing k j with
  | nil => simp [setColorAt]
  | cons c0 cs ih =>
    cases k with
    | zero =>
      cases j with
      | zero => exact absurd rfl h
      | succ j => simp [setColorAt, colorAt]
    | succ k =>
      cases j with
      | zero => simp [setColorAt, colorAt]
      | succ j => simpa [setColorAt, colorAt] using ih k j (by omega)

theorem materialAt_mem (ms : List Mesh) (i k : Nat) (h : materialAt ms i = some k) :
    ∃ mesh ∈ ms, mesh.material = k := by
  induction ms generalizing i with
  | nil => simp [materialAt] at h
  | cons m ms ih =>
    cases i with
    | zero =>
      simp only [materialAt, Option.some.injEq] at h
      exact ⟨m, by simp, h⟩
    | succ i =>
      obtain ⟨mesh, hmem, hk⟩ := ih i (by simpa [materialAt] using h)
      exact ⟨mesh, by simp [hmem], hk⟩

theorem materialAt_of_lt (ms : List Mesh) (i : Nat) (h : i < ms.length) :
    ∃ k, materialAt ms i = some k := by
  induction ms generalizing i with
  | nil => simp at h
  | cons m ms ih =>
    cases i with
    | zero => exact ⟨m.material, rfl⟩
    | succ i => simpa [materialAt] using ih i (by simpa using h)

theorem Model.WellFormed.lt {model : Model} (hw : model.WellFormed) {i k : Nat}
    (h : model.material i = some k) : k < model.materials.length := by
  obtain ⟨mesh, hmem, hk⟩ := materialAt_mem _ _ _ h
  rw [← hk]
  exact hw mesh hmem

theorem Model.children_setColor (model : Model) (i c : Nat) :
    (model.setColor i c).children = model.children := by
  unfold Model.setColor
  split <;> rfl

theorem Model.material_setColor (model : Model) (i c j : Nat) :
    (model.setColor i c).material j = model.material j := by
  simp only [Model.material, Model.children_setColor]

theorem Model.name_setColor (model : Model) (i c j : Nat) :
    (model.setColor i c).name j = model.name j := by
  simp only [Model.name, Model.children_setColor]

theorem Model.materials_setColor (model : Model) (i c k : Nat) (h : model.material i = some k) :
    (model.setColor i c).materials = setColorAt model.materials k c := by
  simp only [Model.setColor, h]

theorem Model.length_setColor (model : Model) (i c : Nat) :
    (model.setColor i c).materials.length = model.materials.length := by
  unfold Model.setColor
  split
  · simp only [length_setColorAt]
  · rfl

/-- After a write through mesh `i`, every mesh with the material of mesh `i` has the new
colour. -/
theorem Model.color_setColor_same (model : Model) (i c j k : Nat)
    (hi : model.material i = some k) (hj : model.material j = some k)
    (hk : k < model.materials.length) : (model.setColor i c).color j = c := by
  simp only [Model.color, Model.material_setColor, hj, Option.some_bind,
    Model.materials_setColor model i c k hi, colorAt_setColorAt_self _ _ _ hk, Option.getD_some]

/-- A write through mesh `i` leaves the meshes with another material as they were. -/
theorem Model.color_setColor_other (model : Model) (i c j k : Nat)
    (hi : model.material i = some k) (hj : model.material j ≠ some k) :
    (model.setColor i c).color j = model.color j := by
  simp only [Model.color, Model.material_setColor, Model.materials_setColor model i c k hi]
  cases hmj : model.material j with
  | none => rfl
  | some kj =>
    have hne : kj ≠ k := fun h => hj (by rw [hmj, h])
    simp only [Option.some_bind, colorAt_setColorAt_ne _ _ _ _ hne]

/-! ## The handlers, case by case -/

theorem handleTouch_overlay (env : Env) (sel : Option Layout) (s : AppState)
    (event : TouchEvent) (h : truthy sel = true) : handleTouch env sel s event = s := by
  unfold handleTouch
  split <;> simp_all

theorem handleTouch_noModel (env : Env) (sel : Option Layout) (s : AppState)
    (event : TouchEvent) (h : s.modelRef = none) : handleTouch env sel s event = s := by
  unfold handleTouch
  split <;> simp_all

theorem handleTouch_miss (env : Env) (sel : Option Layout) (s : AppState)
    (event : TouchEvent) (model : Model) (camera : Camera) (hm : s.modelRef = some model)
    (hc : s.cameraRef = some camera) (hmiss : raycast env camera model event = []) :
    handleTouch env sel s event = s := by
  unfold handleTouch
  split
  · rename_i model1 camera1 h1 h2 h3 h4
    rw [hm] at h1; rw [hc] at h2
    cases h1; cases h2
    simp [hmiss]
  · rfl

theorem handleTouch_eq_self (env : Env) (sel : Option Layout) (s : AppState)
    (event : TouchEvent)
    (h : s.modelRef = none ∨ ∀ model camera, s.modelRef = some model →
      s.cameraRef = some camera → raycast env camera model event = []) :
    handleTouch env sel s event = s := by
  rcases h with h | h
  · exact handleTouch_noModel env sel s event h
  · cases hm : s.modelRef with
    | none => exact handleTouch_noModel env sel s event hm
    | some model =>
      cases hc : s.cameraRef with
      | none =>
        unfold handleTouch
        split <;> simp_all
      | some camera => exact handleTouch_miss env sel s event model camera hm hc (h _ _ hm hc)

theorem setSelectedLayout_fields (s : AppState) (member : Member) :
    (setSelectedLayout s member).modelRef = s.modelRef ∧
    (setSelectedLayout s member).cameraRef = s.cameraRef ∧
    (setSelectedLayout s member).sceneRef = s.sceneRef ∧
    (setSelectedLayout s member).selectedMesh = s.selectedMesh ∧
    (setSelectedLayout s member).originalMaterial = s.originalMaterial ∧
    (setSelectedLayout s member).rotateX = s.rotateX ∧
    (setSelectedLayout s member).rotateY = s.rotateY := by
  cases member with
  | value v => exact ⟨rfl, rfl, rfl, rfl, rfl, rfl, rfl⟩
  | function call =>
    simp only [setSelectedLayout]
    split <;> exact ⟨rfl, rfl, rfl, rfl, rfl, rfl, rfl⟩

/-- The refs after a tap that hits `mesh`: the restore step of lines 133-135, then the
save and the highlight of lines 138-142. -/
theorem handleTouch_hit (env : Env) (s : AppState) (event : TouchEvent) (model : Model)
    (camera : Camera) (mesh : Nat) (rest : List Nat) (hm : s.modelRef = some model)
    (hc : s.cameraRef = some camera) (hs : s.sceneRef = true)
    (hhit : raycast env camera model event = mesh :: rest) :
    ∃ restored : Model,
      (restored = match s.selectedMesh, s.originalMaterial with
        | some previous, some color => model.setColor previous color
        | _, _ => model) ∧
      (handleTouch env none s event).modelRef = some (restored.setColor mesh highlight) ∧
      (handleTouch env none s event).selectedMesh = some mesh ∧
      (handleTouch env none s event).originalMaterial = some (restored.color mesh) ∧
      (handleTouch env none s event).cameraRef = s.cameraRef ∧
      (handleTouch env none s event).sceneRef = s.sceneRef ∧
      handleTouch env none s event =
        (match layoutImages env (model.name mesh) with
         | some member =>
           if member.truthy then
             setSelectedLayout
               { s with
                 modelRef := some (restored.setColor mesh highlight)
                 selectedMesh := some mesh
                 originalMaterial := some (restored.color mesh) } member
           else
             { s with
               modelRef := some (restored.setColor mesh highlight)
               selectedMesh := some mesh
               originalMaterial := some (restored.color mesh) }
         | none =>
           { s with
             modelRef := some (restored.setColor mesh highlight)
             selectedMesh := some mesh
             originalMaterial := some (restored.color mesh) }) := by
  refine ⟨_, rfl, ?_⟩
  have key : handleTouch env none s event =
      (match layoutImages env (model.name mesh) with
       | some member =>
         if member.truthy then
           setSelectedLayout
             { s with
               modelRef := some ((match s.selectedMesh, s.originalMaterial with
                  | some previous, some color => model.setColor previous color
                  | _, _ => model).setColor mesh highlight)
               selectedMesh := some mesh
               originalMaterial := some ((match s.selectedMesh, s.originalMaterial with
                  | some previous, some color => model.setColor previous color
                  | _, _ => model).color mesh) } member
         else
           { s with
             modelRef := some ((match s.selectedMesh, s.originalMaterial with
                  | some previous, some color => model.setColor previous color
                  | _, _ => model).setColor mesh highlight)
             selectedMesh := some mesh
             originalMaterial := some ((match s.selectedMesh, s.originalMaterial with
                  | some previous, some color => model.setColor previous color
                  | _, _ => model).color mesh) }
       | none =>
         { s with
           modelRef := some ((match s.selectedMesh, s.originalMaterial with
                  | some previous, some color => model.setColor previous color
                  | _, _ => model).setColor mesh highlight)
           selectedMesh := some mesh
           originalMaterial := some ((match s.selectedMesh, s.originalMaterial with
                  | some previous, some color => model.setColor previous color
                  | _, _ => model).color mesh) }) := by
    unfold handleTouch
    simp only [hm, hc, hs, hhit, truthy]
  rw [key]
  cases layoutImages env (model.name mesh) with
  | none => exact ⟨rfl, rfl, rfl, rfl, rfl, rfl⟩
  | some member =>
    by_cases ht : member.truthy = true
    · simp only [ht, if_true]
      have hf := setSelectedLayout_fields
        { s with
          modelRef := some ((match s.selectedMesh, s.originalMaterial with
            | some previous, some color => model.setColor previous color
            | _, _ => model).setColor mesh highlight)
          selectedMesh := some mesh
          originalMaterial := some ((match s.selectedMesh, s.originalMaterial with
            | some previous, some color => model.setColor previous color
            | _, _ => model).color mesh) } member
      exact ⟨hf.1, hf.2.2.2.1, hf.2.2.2.2.1, hf.2.1, hf.2.2.1, trivial⟩
    · simp only [ht, if_false]
      exact ⟨rfl, rfl, rfl, rfl, rfl, trivial⟩

/-! ## The invariant -/

theorem colorAt_of_lt (cs : List Nat) (k : Nat) (h : k < cs.length) :
    ∃ c, colorAt cs k = some c := by
  induction cs generalizing k with
  | nil => simp at h
  | cons c0 cs ih =>
    cases k with
    | zero => exact ⟨c0, rfl⟩
    | succ k => simpa [colorAt] using ih k (by simpa using h)

/-- The restore step of lines 133-135 and 152-154 gives every material its loaded
colour. -/
theorem restored_spec (g model : Model) (sm om : Option Nat) (hw : g.WellFormed)
    (hch : model.children = g.children)
    (hlen : model.materials.length = g.materials.length)
    (hsel : match sm, om with
      | none, none => ∀ k, colorAt model.materials k = colorAt g.materials k
      | some m, some c =>
          ∃ k, g.material m = some k ∧ colorAt model.materials k = some highlight ∧
            colorAt g.materials k = some c ∧
            ∀ j, j ≠ k → colorAt model.materials j = colorAt g.materials j
      | _, _ => False) :
    (match sm, om with
      | some previous, some color => model.setColor previous color
      | _, _ => model).children = g.children ∧
    (match sm, om with
      | some previous, some color => model.setColor previous color
      | _, _ => model).materials.length = g.materials.length ∧
    ∀ k, colorAt (match sm, om with
      | some previous, some color => model.setColor previous color
      | _, _ => model).materials k = colorAt g.materials k := by
  cases sm with
  | none =>
    cases om with
    | none => exact ⟨hch, hlen, hsel⟩
    | some c => exact absurd hsel id
  | some m =>
    cases om with
    | none => exact absurd hsel id
    | some c =>
      obtain ⟨k, hk, -, hc, hrest⟩ := hsel
      have hmk : model.material m = some k := by
        simp only [Model.material, hch]
        exact hk
      have hklt : k < model.materials.length := by
        rw [hlen]
        exact hw.lt hk
      refine ⟨by simp only [Model.children_setColor, hch],
        by simp only [Model.length_setColor, hlen], fun j => ?_⟩
      simp only [Model.materials_setColor model m c k hmk]
      by_cases hj : j = k
      · subst hj
        rw [colorAt_setColorAt_self _ _ _ hklt, hc]
      · rw [colorAt_setColorAt_ne _ _ _ _ hj]
        exact hrest j hj

theorem Inv_initialState : Inv none initialState := by
  simp [Inv, initialState]

theorem Inv_onContextCreate (s : AppState) (w h : ℚ) (hi : Inv none s) :
    Inv none (onContextCreate s w h) := by
  unfold Inv at hi ⊢
  cases hm : s.modelRef with
  | none => simp_all [onContextCreate]
  | some model => simp [hm] at hi

theorem Inv_onLoad (length : Vector3 → ℚ) (s : AppState) (gltf : Model) (hi : Inv none s)
    (hc : s.cameraRef ≠ none) (hw : gltf.WellFormed) :
    Inv (some gltf) (onLoad length s gltf) := by
  unfold Inv at hi
  cases hm : s.modelRef with
  | some model => simp [hm] at hi
  | none =>
    simp only [hm] at hi
    obtain ⟨h1, h2, -, h4⟩ := hi
    cases hcam : s.cameraRef with
    | none => exact absurd hcam hc
    | some camera =>
      simp [Inv, onLoad, hcam, h1, h2, h4 hc, hw]

theorem Inv_animate (orig : Option Model) (s : AppState) (hi : Inv orig s) :
    Inv orig (animate s) := by
  unfold animate
  cases hm : s.modelRef with
  | none => simpa [hm] using hi
  | some model =>
    cases orig with
    | none => simp [Inv, hm] at hi
    | some g => simpa [Inv, hm] using hi

theorem Inv_onPanResponderMove (orig : Option Model) (sel : Option Layout) (s : AppState)
    (gesture : Gesture) (hi : Inv orig s) : Inv orig (onPanResponderMove sel s gesture) := by
  unfold onPanResponderMove
  split
  · simpa [Inv] using hi
  · exact hi

theorem Inv_closeLayout (orig : Option Model) (s : AppState) (hi : Inv orig s) :
    Inv orig (closeLayout s) := by
  cases orig with
  | none =>
    cases hm : s.modelRef with
    | some model => simp [Inv, hm] at hi
    | none =>
      simp only [Inv, hm] at hi
      simpa [Inv, closeLayout, hm] using hi.2.2.2
  | some g =>
    cases hm : s.modelRef with
    | none => simp [Inv, hm] at hi
    | some model =>
      simp only [Inv, hm] at hi
      obtain ⟨hc, hs, hw, hch, hlen, hsel⟩ := hi
      have hr := restored_spec g model s.selectedMesh s.originalMaterial hw hch hlen hsel
      cases hsm : s.selectedMesh with
      | none =>
        cases hom : s.originalMaterial with
        | none =>
          simp only [hsm, hom] at hsel
          simp [Inv, closeLayout, hm, hsm, hom, hc, hs, hw, hch, hlen, hsel]
        | some c => simp [hsm, hom] at hsel
      | some m =>
        cases hom : s.originalMaterial with
        | none => simp [hsm, hom] at hsel
        | some c =>
          simp only [hsm, hom] at hr
          simp only [Inv, closeLayout, hm, hsm, hom]
          exact ⟨hc, hs, hw, hr.1, hr.2.1, hr.2.2⟩

theorem Inv_handleTouch (env : Env) (hwf : env.WellFormed) (orig : Option Model)
    (sel : Option Layout) (s : AppState) (event : TouchEvent) (hi : Inv orig s) :
    Inv orig (handleTouch env sel s event) := by
  by_cases hsel0 : truthy sel = true
  · rw [handleTouch_overlay _ _ _ _ hsel0]; exact hi
  · have hsel1 : handleTouch env sel s event = handleTouch env none s event := by
      have : truthy sel = false := by simpa using hsel0
      unfold handleTouch
      rw [this]
      rfl
    rw [hsel1]
    cases hm : s.modelRef with
    | none => rw [handleTouch_noModel _ _ _ _ hm]; exact hi
    | some model =>
      cases orig with
      | none => simp [Inv, hm] at hi
      | some g =>
        have hi0 := hi
        simp only [Inv, hm] at hi
        obtain ⟨hc, hs, hw, hch, hlen, hsel⟩ := hi
        cases hcam : s.cameraRef with
        | none => exact absurd hcam hc
        | some camera =>
          cases hray : raycast env camera model event with
          | nil => rw [handleTouch_miss _ _ _ _ _ _ hm hcam hray]; exact hi0
          | cons mesh rest =>
            have hlt : mesh < model.children.length :=
              hwf camera model _ _ mesh (by
                have : mesh ∈ raycast env camera model event := by rw [hray]; simp
                simpa [raycast] using this)
            obtain ⟨restored, hres, h1, h2, h3, h4, h5, -⟩ :=
              handleTouch_hit env s event model camera mesh rest hm hcam hs hray
            have hr := restored_spec g model s.selectedMesh s.originalMaterial hw hch hlen hsel
            rw [← hres] at hr
            obtain ⟨rch, rlen, rcol⟩ := hr
            obtain ⟨k, hk⟩ := materialAt_of_lt g.children mesh (by rw [← hch]; exact hlt)
            have hgk : g.material mesh = some k := hk
            have hrk : restored.material mesh = some k := by
              simp only [Model.material, rch]
              exact hk
            have hklt : k < restored.materials.length := by
              rw [rlen]
              exact hw.lt hgk
            obtain ⟨c, hcg⟩ := colorAt_of_lt g.materials k (hw.lt hgk)
            have hsaved : restored.color mesh = c := by
              simp only [Model.color, hrk, Option.some_bind, rcol k, hcg, Option.getD_some]
            simp only [Inv, h1, h2, h3, h4, h5, hsaved]
            refine ⟨by simp [hcam], hs, hw, by simp only [Model.children_setColor, rch],
              by simp only [Model.length_setColor, rlen], k, hgk, ?_, hcg, fun j hj => ?_⟩
            · rw [Model.materials_setColor restored mesh highlight k hrk,
                colorAt_setColorAt_self _ _ _ hklt]
            · rw [Model.materials_setColor restored mesh highlight k hrk,
                colorAt_setColorAt_ne _ _ _ _ hj]
              exact rcol j

theorem Inv_step (env : Env) (hwf : env.WellFormed) (orig : Option Model) (s : AppState)
    (e : Event) (hi : Inv orig s) : Inv orig (step env s e) := by
  unfold step
  split
  · exact hi
  · cases e with
    | frame => exact Inv_animate orig s hi
    | move gesture => exact Inv_onPanResponderMove orig _ s gesture hi
    | release evt gesture =>
      simp only [dispatch, panResponderRelease, onPanResponderRelease]
      split
      · exact Inv_handleTouch env hwf orig _ s evt hi
      · exact hi
    | pressClose =>
      simp only [dispatch]
      split
      · exact Inv_closeLayout orig s hi
      · exact hi

theorem Inv_of_reachable (env : Env) (hwf : env.WellFormed) (length : Vector3 → ℚ)
    (orig : Option Model) (s : AppState) (hr : Reachable env length orig s) : Inv orig s := by
  induction hr with
  | init => exact Inv_initialState
  | context w h _ hc ih => exact Inv_onContextCreate _ w h ih
  | load gltf _ hc hw ih => exact Inv_onLoad length _ gltf ih hc hw
  | step e _ ih => exact Inv_step env hwf _ _ e ih

/-! ## Runs -/

theorem run_nil (env : Env) (s : AppState) : run env s [] = s := rfl

theorem run_cons (env : Env) (s : AppState) (e : Event) (es : List Event) :
    run env s (e :: es) = run env (step env s e) es := rfl

theorem Reachable_run (env : Env) (length : Vector3 → ℚ) (orig : Option Model) (s : AppState)
    (events : List Event) (hr : Reachable env length orig s) :
    Reachable env length orig (run env s events) := by
  induction events generalizing s with
  | nil => exact hr
  | cons e es ih => exact ih _ (Reachable.step e hr)

theorem Inv_run (env : Env) (hwf : env.WellFormed) (orig : Option Model) (s : AppState)
    (events : List Event) (hi : Inv orig s) : Inv orig (run env s events) := by
  induction events generalizing s with
  | nil => exact hi
  | cons e es ih => exact ih _ (Inv_step env hwf orig s e hi)

theorem handleTouch_rotate (env : Env) (sel : Option Layout) (s : AppState)
    (event : TouchEvent) :
    (handleTouch env sel s event).rotateX = s.rotateX ∧
    (handleTouch env sel s event).rotateY = s.rotateY := by
  unfold handleTouch
  split
  · dsimp only
    split
    · exact ⟨rfl, rfl⟩
    · split
      · split
        · exact ⟨(setSelectedLayout_fields _ _).2.2.2.2.2.1,
            (setSelectedLayout_fields _ _).2.2.2.2.2.2⟩
        · exact ⟨rfl, rfl⟩
      · exact ⟨rfl, rfl⟩
  · exact ⟨rfl, rfl⟩

theorem step_rotateX (env : Env) (s : AppState) (e : Event) :
    (step env s e).rotateX = s.rotateX := by
  unfold step
  split
  · rfl
  · cases e with
    | frame =>
      simp only [dispatch, animate]
      split <;> rfl
    | move gesture =>
      simp only [dispatch, panResponderMove, onPanResponderMove]
      split <;> rfl
    | release evt gesture =>
      simp only [dispatch, panResponderRelease, onPanResponderRelease]
      split
      · exact (handleTouch_rotate env _ s evt).1
      · rfl
    | pressClose =>
      simp only [dispatch]
      split <;> rfl

theorem run_rotateX (env : Env) (s : AppState) (events : List Event) :
    (run env s events).rotateX = s.rotateX := by
  induction events generalizing s with
  | nil => rfl
  | cons e es ih => rw [run_cons, ih, step_rotateX]

theorem foldl_onPanResponderMove (s : AppState) (gestures : List Gesture) :
    gestures.foldl (onPanResponderMove none) s =
      { s with rotateY := s.rotateY + 0.0002 * (gestures.map Gesture.dx).sum } := by
  induction gestures generalizing s with
  | nil => simp
  | cons g gs ih =>
    rw [List.foldl_cons, ih]
    simp only [onPanResponderMove, truthy, List.map_cons, List.sum_cons]
    congr 1
    ring

theorem foldl_currentRender (s : AppState) (gestures : List Gesture)
    (hsel : s.selectedLayout = none) :
    gestures.foldl (fun t gesture => onPanResponderMove t.selectedLayout t gesture) s =
      gestures.foldl (onPanResponderMove none) s := by
  induction gestures generalizing s with
  | nil => rfl
  | cons g gs ih =>
    simp only [List.foldl_cons, hsel]
    exact ih _ hsel

/-! ## The small buildings -/

theorem demoEnv_wellFormed : demoEnv.WellFormed := by
  intro camera model x y i hi
  simp only [demoEnv, List.mem_filter, decide_eq_true_eq] at hi
  exact hi.2

theorem demoEnv_band0 (camera : Camera) (model : Model) :
    raycast demoEnv camera model (touchBand 0) = [] := by
  simp only [raycast, demoEnv, touchBand]
  norm_num

theorem demoLoaded_reachable : Reachable demoEnv demoLength (some demoModel) demoLoaded :=
  Reachable.load demoModel (Reachable.context 400 800 Reachable.init rfl)
    (by simp [onContextCreate]) (by unfold Model.WellFormed; decide)

theorem demoOpen_reachable : Reachable demoEnv demoLength (some demoModel) demoOpen := by
  have h := Reachable.step (Event.release (touchBand 1) ⟨0, 0⟩) demoLoaded_reachable
  exact h

theorem demoRoof_reachable : Reachable demoEnv demoLength (some demoModel) demoRoof := by
  have h := Reachable.step (Event.release (touchBand 3) ⟨0, 0⟩) demoLoaded_reachable
  exact h

theorem sharedLoaded_reachable :
    Reachable demoEnv demoLength (some sharedModel) sharedLoaded :=
  Reachable.load sharedModel (Reachable.context 400 800 Reachable.init rfl)
    (by simp [onContextCreate]) (by unfold Model.WellFormed; decide)

theorem sharedOpen_reachable : Reachable demoEnv demoLength (some sharedModel) sharedOpen := by
  have h := Reachable.step (Event.release (touchBand 1) ⟨0, 0⟩) sharedLoaded_reachable
  exact h

theorem sharedRoofLoaded_reachable :
    Reachable demoEnv demoLength (some sharedRoofModel) sharedRoofLoaded :=
  Reachable.load sharedRoofModel (Reachable.context 400 800 Reachable.init rfl)
    (by simp [onContextCreate]) (by unfold Model.WellFormed; decide)

theorem sharedRoofTapped_reachable :
    Reachable demoEnv demoLength (some sharedRoofModel) sharedRoofTapped := by
  have h := Reachable.step (Event.release (touchBand 3) ⟨0, 0⟩) sharedRoofLoaded_reachable
  exact h

theorem protoLoaded_reachable : Reachable demoEnv demoLength (some protoModel) protoLoaded :=
  Reachable.load protoModel (Reachable.context 400 800 Reachable.init rfl)
    (by simp [onContextCreate]) (by unfold Model.WellFormed; decide)

/-! ## Picking -/

/-- C1: with `sharedRoofModel`, whose roof and glass share one material, the roof is
tapped first (it has no layout, so no overlay opens and the roof is selected), then the
glass.  The second tap sets `selectedLayout` to layout 1, selects the glass and gives it
the highlight colour, but the roof, the previously selected surface, does not get back the
colour `0x808080` it had before it was highlighted: the restore of lines 133-135 and the
highlight of line 142 write the same material, so the roof is left with `0xffff00`.  With
`demoModel`, where every mesh has its own material, the same two taps do restore the
roof. -/
theorem handleTouch_shared_material_previous :
    Reachable demoEnv demoLength (some sharedRoofModel) sharedRoofTapped ∧
    sharedRoofTapped.selectedLayout = none ∧
    sharedRoofTapped.selectedMesh = some 2 ∧
    sharedRoofModel.color 2 = 0x808080 ∧
    sharedRoofModel.name 0 = "o_glass" ∧
    (handleTouch demoEnv sharedRoofTapped.selectedLayout sharedRoofTapped
      (touchBand 1)).selectedLayout = some (Layout.image LayoutImage.layout1) ∧
    (handleTouch demoEnv sharedRoofTapped.selectedLayout sharedRoofTapped
      (touchBand 1)).selectedMesh = some 0 ∧
    ((handleTouch demoEnv sharedRoofTapped.selectedLayout sharedRoofTapped
      (touchBand 1)).modelRef.map fun m => (m.color 0, m.color 2)) =
        some (highlight, highlight) ∧
    demoModel.color 2 = 0x552200 ∧
    ((handleTouch demoEnv demoRoof.selectedLayout demoRoof (touchBand 1)).modelRef.map
      fun m => (m.color 0, m.color 2)) = some (highlight, 0x552200) :=
  ⟨sharedRoofTapped_reachable, by decide!, by decide!, by decide!, by decide!, by decide!,
    by decide!, by decide!, by decide!, by decide!⟩

/-- C2: a tap that finds no surface (no model is loaded, or the ray meets no mesh of the
model) returns the state it was given: selection, saved colour, overlay and every mesh
colour are unchanged.  The handler is a total function, so nothing is thrown. -/
theorem handleTouch_no_hit (env : Env) (sel : Option Layout) (s : AppState)
    (event : TouchEvent)
    (h : s.modelRef = none ∨ ∀ model camera, s.modelRef = some model →
      s.cameraRef = some camera → raycast env camera model event = []) :
    handleTouch env sel s event = s := by
  cases hm : s.modelRef with
  | none => exact handleTouch_noModel env sel s event hm
  | some model =>
    cases hc : s.cameraRef with
    | none =>
      unfold handleTouch
      split <;> simp_all
    | some camera =>
      have hmiss : raycast env camera model event = [] := by
        rcases h with h | h
        · rw [hm] at h
          cases h
        · exact h model camera hm hc
      exact handleTouch_miss env sel s event model camera hm hc hmiss

theorem handleTouch_no_hit_witness :
    handleTouch demoEnv none initialState (touchBand 1) = initialState ∧
    handleTouch demoEnv none demoLoaded (touchBand 0) = demoLoaded :=
  ⟨handleTouch_no_hit demoEnv none initialState (touchBand 1) (Or.inl rfl),
   handleTouch_no_hit demoEnv none demoLoaded (touchBand 0)
    (Or.inr fun model camera _ _ => demoEnv_band0 camera model)⟩

/-! ## Closing the overlay -/

/-- C3: `closeLayout` clears the selection, the saved colour and the overlay in every
state; it is idempotent; with nothing selected it changes no mesh; with a mesh selected
it writes the saved colour back to the material of that mesh, so to that mesh and to the
meshes sharing its material, and touches no mesh with another material; and in every
reachable state, however many taps and closes came before, all meshes have their loaded
colours after it. -/
theorem closeLayout_restores_and_clears :
    (∀ s : AppState, (closeLayout s).selectedMesh = none ∧
      (closeLayout s).originalMaterial = none ∧ (closeLayout s).selectedLayout = none) ∧
    (∀ s : AppState, closeLayout (closeLayout s) = closeLayout s) ∧
    (∀ s : AppState, s.selectedMesh = none → (closeLayout s).modelRef = s.modelRef) ∧
    (∀ (s : AppState) (model : Model) (m c k : Nat), s.modelRef = some model →
      s.selectedMesh = some m → s.originalMaterial = some c → model.material m = some k →
      k < model.materials.length →
      ∃ model1, (closeLayout s).modelRef = some model1 ∧ model1.color m = c ∧
        (∀ i, model.material i = some k → model1.color i = c) ∧
        ∀ i, model.material i ≠ some k → model1.color i = model.color i) ∧
    (∀ (env : Env) (length : Vector3 → ℚ) (g : Model) (s : AppState), env.WellFormed →
      Reachable env length (some g) s →
      ∃ model1, (closeLayout s).modelRef = some model1 ∧ ∀ i, model1.color i = g.color i) := by
  refine ⟨fun s => ⟨rfl, rfl, rfl⟩, fun s => ?_, fun s h => ?_, ?_, ?_⟩
  · cases hm : s.modelRef <;> simp [closeLayout, hm]
  · cases hm : s.modelRef <;> simp [closeLayout, hm, h]
  · intro s model m c k hm hsm hom hk hlt
    exact ⟨model.setColor m c, by simp [closeLayout, hm, hsm, hom],
      Model.color_setColor_same _ _ _ _ _ hk hk hlt,
      fun i hi => Model.color_setColor_same _ _ _ _ _ hk hi hlt,
      fun i hi => Model.color_setColor_other _ _ _ _ _ hk hi⟩
  · intro env length g s hwf hr
    have hinv := Inv_closeLayout _ _ (Inv_of_reachable env hwf length _ _ hr)
    cases hm : (closeLayout s).modelRef with
    | none => simp [Inv, hm] at hinv
    | some model1 =>
      refine ⟨model1, rfl, fun i => ?_⟩
      simp only [Inv, hm] at hinv
      obtain ⟨-, -, -, hch, -, h5⟩ := hinv
      have e1 : (closeLayout s).selectedMesh = none := rfl
      have e2 : (closeLayout s).originalMaterial = none := rfl
      simp only [e1, e2] at h5
      simp only [Model.color, Model.material, hch]
      cases materialAt g.children i with
      | none => rfl
      | some k => simp only [Option.some_bind, h5 k]

theorem closeLayout_restores_and_clears_witness :
    (∃ model1, (closeLayout demoOpen).modelRef = some model1 ∧
      ∀ i, model1.color i = demoModel.color i) ∧
    (closeLayout initialState).modelRef = initialState.modelRef ∧
    (∃ model1, (closeLayout demoOpen).modelRef = some model1 ∧ model1.color 0 = 0x88ccff ∧
      (∀ i, (demoCentered.setColor 0 highlight).material i = some 0 →
        model1.color i = 0x88ccff) ∧
      ∀ i, (demoCentered.setColor 0 highlight).material i ≠ some 0 →
        model1.color i = (demoCentered.setColor 0 highlight).color i) :=
  ⟨closeLayout_restores_and_clears.2.2.2.2 demoEnv demoLength demoModel demoOpen
      demoEnv_wellFormed demoOpen_reachable,
   closeLayout_restores_and_clears.2.2.1 initialState rfl,
   closeLayout_restores_and_clears.2.2.2.1 demoOpen (demoCentered.setColor 0 highlight) 0
      0x88ccff 0 (by decide!) (by decide!) (by decide!) (by decide!) (by decide!)⟩

/-! ## The highlight invariant -/

/-- C6: with `sharedModel`, whose glass and concrete share one material of colour
`0x808080`, a single tap on the glass leaves the glass selected and highlighted and the
concrete, which is not selected, highlighted as well: line 142 writes `0xffff00` into the
shared material.  So a surface that is not selected does not have its loaded colour and
two surfaces are highlighted at once. -/
theorem highlight_shared_material :
    Reachable demoEnv demoLength (some sharedModel) sharedOpen ∧
    sharedOpen.selectedMesh = some 0 ∧
    sharedOpen.originalMaterial = some 0x808080 ∧
    (sharedModel.color 0, sharedModel.color 1, sharedModel.color 2) =
      (0x808080, 0x808080, 0x552200) ∧
    (sharedOpen.modelRef.map fun m => (m.color 0, m.color 1, m.color 2)) =
      some (highlight, highlight, 0x552200) ∧
    ¬ (∀ model, sharedOpen.modelRef = some model →
        ∀ i, sharedOpen.selectedMesh ≠ some i → model.color i = sharedModel.color i) := by
  refine ⟨sharedOpen_reachable, by decide!, by decide!, by decide!, by decide!, ?_⟩
  intro h
  have hm : sharedOpen.modelRef = some ((sharedOpen.modelRef).getD demoModel) := by decide!
  have h1 := h _ hm 1 (by decide!)
  revert h1
  decide!

/-! ## The installed gesture handlers -/

/-- C4: the move handler the component installs is the one of the first render, in which
`selectedLayout` is `null`; it adds `dx * 0.0002` to `rotateY` in every state.  With the
overlay of `demoOpen` showing, a move with `dx = 50` takes `rotateY` from `0` to `1/100`,
where the handler of the current render would have left it at `0`. -/
theorem panResponderMove_ignores_overlay :
    (∀ (s : AppState) (gesture : Gesture),
      (panResponderMove s gesture).rotateY = s.rotateY + gesture.dx * 0.0002) ∧
    Reachable demoEnv demoLength (some demoModel) demoOpen ∧
    demoOpen.selectedLayout = some (Layout.image LayoutImage.layout1) ∧
    demoOpen.rotateY = 0 ∧
    (panResponderMove demoOpen ⟨50, 0⟩).rotateY = 1 / 100 ∧
    (onPanResponderMove demoOpen.selectedLayout demoOpen ⟨50, 0⟩).rotateY = 0 :=
  ⟨fun _ _ => rfl, demoOpen_reachable, by decide!, by decide!, by decide!, by decide!⟩

/-- C5: the release handler the component installs calls the first render's `handleTouch`,
whose `selectedLayout` is `null`, so the overlay guard of line 115 never fires.  With the
overlay of `demoOpen` showing layout 1 and mesh 0 selected, a tap on mesh 1 selects mesh 1,
restores mesh 0, highlights mesh 1 and switches the overlay to layout 2, where the
`handleTouch` of the current render would have changed nothing. -/
theorem panResponderRelease_ignores_overlay :
    Reachable demoEnv demoLength (some demoModel) demoOpen ∧
    demoOpen.selectedLayout = some (Layout.image LayoutImage.layout1) ∧
    demoOpen.selectedMesh = some 0 ∧
    demoOpen.originalMaterial = some 0x88ccff ∧
    (demoOpen.modelRef.map fun m => (m.color 0, m.color 1)) = some (highlight, 0x808080) ∧
    (panResponderRelease demoEnv demoOpen (touchBand 2) ⟨0, 0⟩).selectedLayout =
      some (Layout.image LayoutImage.layout2) ∧
    (panResponderRelease demoEnv demoOpen (touchBand 2) ⟨0, 0⟩).selectedMesh = some 1 ∧
    (panResponderRelease demoEnv demoOpen (touchBand 2) ⟨0, 0⟩).originalMaterial =
      some 0x808080 ∧
    ((panResponderRelease demoEnv demoOpen (touchBand 2) ⟨0, 0⟩).modelRef.map
      fun m => (m.color 0, m.color 1)) = some (0x88ccff, highlight) ∧
    handleTouch demoEnv demoOpen.selectedLayout demoOpen (touchBand 2) = demoOpen :=
  ⟨demoOpen_reachable, by decide!, by decide!, by decide!, by decide!, by decide!, by decide!,
    by decide!, by decide!, by decide!⟩

/-- C7: a release calls `handleTouch` with the release event exactly when `|dx| < 5` and
`|dy| < 5`, and otherwise returns the state unchanged, for the handler of any render and
so for the installed one; a release with displacement `(50, 2)` is not a tap, and neither
is one with `dx = 5` or `dx = -5`. -/
theorem release_is_tap_iff (env : Env) (sel : Option Layout) (s : AppState)
    (evt : TouchEvent) (gesture : Gesture) :
    onPanResponderRelease env sel s evt gesture =
      (if |gesture.dx| < 5 ∧ |gesture.dy| < 5 then handleTouch env sel s evt else s) ∧
    panResponderRelease env s evt gesture =
      (if |gesture.dx| < 5 ∧ |gesture.dy| < 5 then handleTouch env firstRender s evt else s) ∧
    (isTap gesture = true ↔ |gesture.dx| < 5 ∧ |gesture.dy| < 5) ∧
    panResponderRelease env s evt ⟨50, 2⟩ = s ∧
    panResponderRelease env s evt ⟨5, gesture.dy⟩ = s ∧
    panResponderRelease env s evt ⟨-5, gesture.dy⟩ = s := by
  have hiff : ∀ g : Gesture, isTap g = true ↔ |g.dx| < 5 ∧ |g.dy| < 5 := by
    intro g
    simp [isTap]
  have hgen : ∀ (sel1 : Option Layout) (g : Gesture),
      onPanResponderRelease env sel1 s evt g =
        (if |g.dx| < 5 ∧ |g.dy| < 5 then handleTouch env sel1 s evt else s) := by
    intro sel1 g
    unfold onPanResponderRelease
    by_cases h : isTap g = true
    · rw [if_pos h, if_pos ((hiff g).1 h)]
    · rw [if_neg h, if_neg (fun h1 => h ((hiff g).2 h1))]
  refine ⟨hgen sel gesture, hgen _ gesture, hiff gesture, ?_, ?_, ?_⟩
  · rw [panResponderRelease, hgen]
    norm_num
  · rw [panResponderRelease, hgen]
    norm_num
  · rw [panResponderRelease, hgen]
    norm_num

/-- C8: with no overlay open, a sequence of moves with horizontal deltas `dx_1 .. dx_n`
leaves the state as it was except that `rotateY` has grown by
`0.0002 * (dx_1 + ... + dx_n)`, for the installed handler and for the handler of the
current render alike; `dy` is not read; a single move with `dx = 50` adds `0.01`; and no
sequence of events of any kind changes `rotateX`. -/
theorem move_accumulates (s : AppState) (gestures : List Gesture)
    (hsel : s.selectedLayout = none) :
    gestures.foldl panResponderMove s =
      { s with rotateY := s.rotateY + 0.0002 * (gestures.map Gesture.dx).sum } ∧
    gestures.foldl (fun t gesture => onPanResponderMove t.selectedLayout t gesture) s =
      { s with rotateY := s.rotateY + 0.0002 * (gestures.map Gesture.dx).sum } ∧
    (∀ dy : ℚ, (panResponderMove s ⟨50, dy⟩).rotateY = s.rotateY + 0.01) ∧
    (∀ (env : Env) (events : List Event), (run env s events).rotateX = s.rotateX) := by
  refine ⟨foldl_onPanResponderMove s gestures, ?_, ?_, fun env events => run_rotateX env s events⟩
  · rw [foldl_currentRender s gestures hsel]
    exact foldl_onPanResponderMove s gestures
  · intro dy
    simp only [panResponderMove, onPanResponderMove, firstRender, initialState, truthy]
    norm_num

theorem move_accumulates_witness :
    [(⟨50, 2⟩ : Gesture), ⟨-20, 7⟩].foldl panResponderMove demoLoaded =
      { demoLoaded with
        rotateY := demoLoaded.rotateY +
          0.0002 * ([(⟨50, 2⟩ : Gesture), ⟨-20, 7⟩].map Gesture.dx).sum } ∧
    [(⟨50, 2⟩ : Gesture), ⟨-20, 7⟩].foldl
        (fun t gesture => onPanResponderMove t.selectedLayout t gesture) demoLoaded =
      { demoLoaded with
        rotateY := demoLoaded.rotateY +
          0.0002 * ([(⟨50, 2⟩ : Gesture), ⟨-20, 7⟩].map Gesture.dx).sum } ∧
    (∀ dy : ℚ, (panResponderMove demoLoaded ⟨50, dy⟩).rotateY = demoLoaded.rotateY + 0.01) ∧
    (∀ (env : Env) (events : List Event),
      (run env demoLoaded events).rotateX = demoLoaded.rotateX) :=
  move_accumulates demoLoaded [⟨50, 2⟩, ⟨-20, 7⟩] (by decide!)

/-! ## A surface without a layout -/

/-- C9: two ways in which a tap on a surface whose name is not a key of the literal
departs from "selected, highlighted, no overlay, restored by the next hit".  First, the
lookup of line 144 follows the prototype chain: in `protoModel` a tap on the mesh named
`constructor` finds the function `Object`, which `setSelectedLayout` calls, and
`selectedLayout` becomes a truthy object, so the overlay is mounted; a tap on the mesh
named `hasOwnProperty` makes the updater throw and the component is unmounted.  Second,
in `sharedRoofModel` the roof, tapped first and left highlighted without an overlay, is
not given back its colour `0x808080` by a later tap on the glass, which shares its
material, while a later tap on the concrete does restore it. -/
theorem handleTouch_unmapped_divergence :
    (Reachable demoEnv demoLength (some protoModel) protoLoaded ∧
      protoLoaded.selectedLayout = none ∧
      protoModel.name 0 = "constructor" ∧
      (handleTouch demoEnv protoLoaded.selectedLayout protoLoaded (touchBand 1)).selectedMesh =
        some 0 ∧
      (handleTouch demoEnv protoLoaded.selectedLayout protoLoaded
        (touchBand 1)).selectedLayout = some (Layout.foreign true 0) ∧
      truthy (handleTouch demoEnv protoLoaded.selectedLayout protoLoaded
        (touchBand 1)).selectedLayout = true ∧
      protoModel.name 1 = "hasOwnProperty" ∧
      (handleTouch demoEnv protoLoaded.selectedLayout protoLoaded (touchBand 2)).crashed =
        true) ∧
    (Reachable demoEnv demoLength (some sharedRoofModel) sharedRoofTapped ∧
      sharedRoofTapped.selectedLayout = none ∧
      sharedRoofTapped.selectedMesh = some 2 ∧
      sharedRoofModel.name 2 = "o_roof" ∧
      sharedRoofModel.color 2 = 0x808080 ∧
      (sharedRoofTapped.modelRef.map fun m => m.color 2) = some highlight ∧
      ((step demoEnv sharedRoofTapped (Event.release (touchBand 1) ⟨0, 0⟩)).modelRef.map
        fun m => m.color 2) = some highlight ∧
      (step demoEnv sharedRoofTapped (Event.release (touchBand 1) ⟨0, 0⟩)).selectedMesh =
        some 0 ∧
      ((step demoEnv sharedRoofTapped (Event.release (touchBand 2) ⟨0, 0⟩)).modelRef.map
        fun m => m.color 2) = some 0x808080) :=
  ⟨⟨protoLoaded_reachable, by decide!, by decide!, by decide!, by decide!, by decide!,
      by decide!, by decide!⟩,
    ⟨sharedRoofTapped_reachable, by decide!, by decide!, by decide!, by decide!, by decide!,
      by decide!, by decide!, by decide!⟩⟩

/-! ## Framing the model -/

theorem cauchy2 (α β γ y z r : ℚ) (hγ : 0 ≤ γ) (hyz : y ^ 2 + z ^ 2 ≤ r ^ 2)
    (h : (α ^ 2 + β ^ 2) * r ^ 2 ≤ γ ^ 2) : α * y + β * z ≤ γ := by
  have h1 : (α * y + β * z) ^ 2 ≤ γ ^ 2 := by
    nlinarith [sq_nonneg (α * z - β * y),
      mul_nonneg (add_nonneg (sq_nonneg α) (sq_nonneg β)) (sub_nonneg.2 hyz)]
  by_contra hc
  push_neg at hc
  nlinarith

theorem depth_bounds (y z r : ℚ) (hr : 0 ≤ r)
    (hyz : y ^ 2 + z ^ 2 ≤ (1001 / 1000 * r) ^ 2) :
    5997 / 1000 * r ^ 2 - 1001 / 2000 * r ≤ 9 * r ^ 2 - (3 * r * z + y / 2) ∧
    9 * r ^ 2 - (3 * r * z + y / 2) ≤ 12003 / 1000 * r ^ 2 + 1001 / 2000 * r := by
  have h1 := cauchy2 (1 / 2) (3 * r) (1001 / 1000 * r * (3 * r + 1 / 2)) y z
    (1001 / 1000 * r) (by positivity) hyz
    (by nlinarith [mul_nonneg hr (sq_nonneg r)])
  have h2 := cauchy2 (-(1 / 2)) (-(3 * r)) (1001 / 1000 * r * (3 * r + 1 / 2)) y z
    (1001 / 1000 * r) (by positivity) hyz
    (by nlinarith [mul_nonneg hr (sq_nonneg r)])
  constructor <;> nlinarith

theorem vertical_bound (y z r : ℚ) (hr : 7 / 2 ≤ r)
    (hyz : y ^ 2 + z ^ 2 ≤ (1001 / 1000 * r) ^ 2) :
    (3 * r * y - z / 2 + 3 * r / 2) ^ 2 ≤
      1715 / 10000 * (9 * r ^ 2 - (3 * r * z + y / 2)) ^ 2 := by
  have hr0 : 0 ≤ r := by linarith
  have hd := (depth_bounds y z r hr0 hyz).1
  have hd0 : 0 ≤ 9 * r ^ 2 - (3 * r * z + y / 2) := by nlinarith
  have h1 := cauchy2 (3 * r + 4141 / 20000) (4141 / 10000 * (3 * r) - 1 / 2)
    (4141 / 10000 * (9 * r ^ 2) - 3 * r / 2) y z (1001 / 1000 * r) (by nlinarith) hyz
    (by nlinarith [mul_nonneg (sq_nonneg r) (mul_nonneg (sub_nonneg.2 hr) (sub_nonneg.2 hr)),
      mul_nonneg (sq_nonneg r) (sub_nonneg.2 hr), sq_nonneg r])
  have h2 := cauchy2 (-(3 * r - 4141 / 20000)) (4141 / 10000 * (3 * r) + 1 / 2)
    (4141 / 10000 * (9 * r ^ 2) + 3 * r / 2) y z (1001 / 1000 * r) (by nlinarith) hyz
    (by nlinarith [mul_nonneg (sq_nonneg r) (mul_nonneg (sub_nonneg.2 hr) (sub_nonneg.2 hr)),
      mul_nonneg (sq_nonneg r) (sub_nonneg.2 hr), sq_nonneg r])
  have e1 : 3 * r * y - z / 2 + 3 * r / 2 ≤
      4141 / 10000 * (9 * r ^ 2 - (3 * r * z + y / 2)) := by linarith
  have e2 : -(3 * r * y - z / 2 + 3 * r / 2) ≤
      4141 / 10000 * (9 * r ^ 2 - (3 * r * z + y / 2)) := by linarith
  have e3 : (3 * r * y - z / 2 + 3 * r / 2) ^ 2 ≤
      (4141 / 10000 * (9 * r ^ 2 - (3 * r * z + y / 2))) ^ 2 := by
    apply sq_le_sq'
    · linarith
    · exact e1
  nlinarith [sq_nonneg (9 * r ^ 2 - (3 * r * z + y / 2))]

theorem horizontal_bound (x y z r : ℚ) (hr : 7 / 2 ≤ r)
    (hxyz : x ^ 2 + y ^ 2 + z ^ 2 ≤ (1001 / 1000 * r) ^ 2) :
    x ^ 2 * (9 * r ^ 2 + 1 / 4) ≤
      1715 / 10000 * (9 * r ^ 2 - (3 * r * z + y / 2)) ^ 2 := by
  have hr0 : 0 ≤ r := by linarith
  have h1 : x ^ 2 * (9 * r ^ 2 + 1 / 4) ≤
      (1001 / 1000 * r) ^ 2 * (9 * r ^ 2 + 1 / 4) - (3 * r * z + y / 2) ^ 2 := by
    nlinarith [sq_nonneg (3 * r * y - z / 2), mul_nonneg (sub_nonneg.2 hxyz)
      (show (0 : ℚ) ≤ 9 * r ^ 2 + 1 / 4 by positivity)]
  have h2 : (1001 / 1000 * r) ^ 2 * (9 * r ^ 2 + 1 / 4) - (3 * r * z + y / 2) ^ 2 ≤
      1715 / 10000 * (9 * r ^ 2 - (3 * r * z + y / 2)) ^ 2 := by
    nlinarith [sq_nonneg (11715 / 10000 * (3 * r * z + y / 2) - 1715 / 10000 * (9 * r ^ 2)),
      mul_nonneg (sq_nonneg r) (sq_nonneg r), sq_nonneg r,
      mul_nonneg (sq_nonneg r) (mul_nonneg (sub_nonneg.2 hr) (sub_nonneg.2 hr))]
  linarith

theorem near_bound (r : ℚ) (hr1 : 7 / 2 ≤ r) :
    1 / 100 * (9 * r ^ 2 + 1 / 4) ≤ (5997 / 1000 * r ^ 2 - 1001 / 2000 * r) ^ 2 := by
  have h1 : 0 ≤ r := by linarith
  have h2 : 5 * r ≤ 5997 / 1000 * r ^ 2 - 1001 / 2000 * r := by nlinarith
  have h3 : (5 * r) ^ 2 ≤ (5997 / 1000 * r ^ 2 - 1001 / 2000 * r) ^ 2 :=
    pow_le_pow_left₀ (by positivity) h2 2
  nlinarith

theorem far_bound (r : ℚ) (hr0 : 0 ≤ r) (hr2 : r ≤ 225) :
    (12003 / 1000 * r ^ 2 + 1001 / 2000 * r) ^ 2 ≤ 1000000 * (9 * r ^ 2 + 1 / 4) := by
  have h2 : 12003 / 1000 * r ^ 2 + 1001 / 2000 * r ≤ 2702 * r := by nlinarith
  have h3 : (12003 / 1000 * r ^ 2 + 1001 / 2000 * r) ^ 2 ≤ (2702 * r) ^ 2 :=
    pow_le_pow_left₀ (by positivity) h2 2
  nlinarith

theorem tan_sq_pi_div_eight : Real.tan (Real.pi / 8) ^ 2 = 3 - 2 * Real.sqrt 2 := by
  have h2 : (0 : ℝ) ≤ 2 := by norm_num
  have hs : Real.sqrt 2 ^ 2 = 2 := Real.sq_sqrt h2
  have hs0 : 0 ≤ Real.sqrt 2 := Real.sqrt_nonneg 2
  have hlt : Real.sqrt 2 < 2 := by nlinarith
  have h1 : Real.sqrt (2 - Real.sqrt 2) ^ 2 = 2 - Real.sqrt 2 := Real.sq_sqrt (by linarith)
  have h3 : Real.sqrt (2 + Real.sqrt 2) ^ 2 = 2 + Real.sqrt 2 := Real.sq_sqrt (by linarith)
  rw [Real.tan_eq_sin_div_cos, Real.sin_pi_div_eight, Real.cos_pi_div_eight, div_pow, div_pow,
    div_pow, h1, h3]
  have hne : 2 + Real.sqrt 2 ≠ 0 := by linarith
  field_simp
  nlinarith

theorem le_tanSq_real (A B : ℝ) (hB : 0 ≤ B) :
    (A ≤ 3 * B ∧ 8 * B ^ 2 ≤ (3 * B - A) ^ 2) ↔ A ≤ B * Real.tan (Real.pi / 8) ^ 2 := by
  have h2 : (0 : ℝ) ≤ 2 := by norm_num
  have hs : Real.sqrt 2 ^ 2 = 2 := Real.sq_sqrt h2
  have hs0 : 0 ≤ Real.sqrt 2 := Real.sqrt_nonneg 2
  have hlt : Real.sqrt 2 < 3 / 2 := by nlinarith
  rw [tan_sq_pi_div_eight]
  constructor
  · rintro ⟨h1, h3⟩
    have h4 : 0 ≤ 3 * B - A := by linarith
    by_contra hc
    push_neg at hc
    have h5 : 3 * B - A < 2 * Real.sqrt 2 * B := by linarith
    have h6 : (3 * B - A) ^ 2 < (2 * Real.sqrt 2 * B) ^ 2 := pow_lt_pow_left₀ h5 h4 (by norm_num)
    nlinarith
  · intro h
    have h4 : 2 * Real.sqrt 2 * B ≤ 3 * B - A := by linarith
    have h5 : 0 ≤ 2 * Real.sqrt 2 * B := by positivity
    refine ⟨by nlinarith, ?_⟩
    have h6 : (2 * Real.sqrt 2 * B) ^ 2 ≤ (3 * B - A) ^ 2 := pow_le_pow_left₀ h5 h4 2
    nlinarith

/-- The rational test `leTanSq` is the comparison with `tan² 22.5°` over the reals. -/
theorem leTanSq_iff_real (A B : ℚ) (hB : 0 ≤ B) :
    leTanSq A B = true ↔ (A : ℝ) ≤ (B : ℝ) * Real.tan (Real.pi / 8) ^ 2 := by
  rw [← le_tanSq_real (A : ℝ) (B : ℝ) (by exact_mod_cast hB)]
  simp only [leTanSq, Bool.and_eq_true, decide_eq_true_eq]
  constructor
  · rintro ⟨h1, h2⟩
    exact ⟨by exact_mod_cast h1, by exact_mod_cast h2⟩
  · rintro ⟨h1, h2⟩
    exact ⟨by exact_mod_cast h1, by exact_mod_cast h2⟩

theorem mul_sqrt_le_iff (a x d : ℝ) (ha : 0 ≤ a) (hx : 0 ≤ x) (hd : 0 ≤ d) :
    a * Real.sqrt x ≤ d ↔ a ^ 2 * x ≤ d ^ 2 := by
  have h0 : 0 ≤ a * Real.sqrt x := mul_nonneg ha (Real.sqrt_nonneg x)
  have h1 : (a * Real.sqrt x) ^ 2 = a ^ 2 * x := by rw [mul_pow, Real.sq_sqrt hx]
  rw [← h1, sq_le_sq, abs_of_nonneg h0, abs_of_nonneg hd]

theorem le_mul_sqrt_iff (a x d : ℝ) (ha : 0 ≤ a) (hx : 0 ≤ x) (hd : 0 ≤ d) :
    d ≤ a * Real.sqrt x ↔ d ^ 2 ≤ a ^ 2 * x := by
  have h0 : 0 ≤ a * Real.sqrt x := mul_nonneg ha (Real.sqrt_nonneg x)
  have h1 : (a * Real.sqrt x) ^ 2 = a ^ 2 * x := by rw [mul_pow, Real.sq_sqrt hx]
  rw [← h1, sq_le_sq, abs_of_nonneg h0, abs_of_nonneg hd]

theorem Vector3.lengthSq_nonneg (a : Vector3) : 0 ≤ a.lengthSq := by
  simp only [Vector3.lengthSq, Vector3.dot]
  nlinarith [mul_self_nonneg a.x, mul_self_nonneg a.y, mul_self_nonneg a.z]

/-- The rational frustum test is the geometric one: with `q = p - position`, the depth
`q·F / |F|` lies between `near` and `far`, and the offsets `|q·U| / |U|` and `|q·R| / |R|`
are at most `depth * tan 22.5°` and `depth * tan 22.5° * aspect` (each inequality
multiplied by the lengths in its denominators). -/
theorem Camera.sees_iff_real (c : Camera) (p : Vector3) (hn : 0 ≤ c.near) (hf : 0 ≤ c.far)
    (ha : 0 ≤ c.aspect) :
    c.sees p = true ↔
      (c.near : ℝ) * Real.sqrt (c.forward.lengthSq : ℚ) ≤ ((p.sub c.position).dot c.forward : ℚ) ∧
      (((p.sub c.position).dot c.forward : ℚ) : ℝ) ≤
        (c.far : ℝ) * Real.sqrt (c.forward.lengthSq : ℚ) ∧
      |(((p.sub c.position).dot c.upward : ℚ) : ℝ)| * Real.sqrt (c.forward.lengthSq : ℚ) ≤
        (((p.sub c.position).dot c.forward : ℚ) : ℝ) * Real.sqrt (c.upward.lengthSq : ℚ) *
          Real.tan (Real.pi / 8) ∧
      |(((p.sub c.position).dot c.right : ℚ) : ℝ)| * Real.sqrt (c.forward.lengthSq : ℚ) ≤
        (((p.sub c.position).dot c.forward : ℚ) : ℝ) * Real.sqrt (c.right.lengthSq : ℚ) *
          (c.aspect : ℝ) * Real.tan (Real.pi / 8) := by
  have hFF : (0 : ℝ) ≤ (c.forward.lengthSq : ℚ) := by exact_mod_cast c.forward.lengthSq_nonneg
  have hUU : (0 : ℝ) ≤ (c.upward.lengthSq : ℚ) := by exact_mod_cast c.upward.lengthSq_nonneg
  have hRR : (0 : ℝ) ≤ (c.right.lengthSq : ℚ) := by exact_mod_cast c.right.lengthSq_nonneg
  have hUUq := c.upward.lengthSq_nonneg
  have hRRq := c.right.lengthSq_nonneg
  have hnr : (0 : ℝ) ≤ c.near := by exact_mod_cast hn
  have hfr : (0 : ℝ) ≤ c.far := by exact_mod_cast hf
  have har : (0 : ℝ) ≤ c.aspect := by exact_mod_cast ha
  have ht : 0 ≤ Real.tan (Real.pi / 8) :=
    le_of_lt (Real.tan_pos_of_pos_of_lt_pi_div_two (by positivity)
      (by linarith [Real.pi_pos]))
  have hsees : c.sees p = true ↔ 0 ≤ (p.sub c.position).dot c.forward ∧
      c.near ^ 2 * c.forward.lengthSq ≤ (p.sub c.position).dot c.forward ^ 2 ∧
      (p.sub c.position).dot c.forward ^ 2 ≤ c.far ^ 2 * c.forward.lengthSq ∧
      leTanSq ((p.sub c.position).dot c.upward ^ 2 * c.forward.lengthSq)
        ((p.sub c.position).dot c.forward ^ 2 * c.upward.lengthSq) = true ∧
      leTanSq ((p.sub c.position).dot c.right ^ 2 * c.forward.lengthSq)
        ((p.sub c.position).dot c.forward ^ 2 * c.right.lengthSq * c.aspect ^ 2) = true := by
    simp only [Camera.sees, Bool.and_eq_true, decide_eq_true_eq, and_assoc]
  rw [hsees]
  clear hsees
  generalize (p.sub c.position).dot c.forward = d
  generalize (p.sub c.position).dot c.upward = u
  generalize (p.sub c.position).dot c.right = v
  generalize c.forward.lengthSq = FF at *
  generalize c.upward.lengthSq = UU at *
  generalize c.right.lengthSq = RR at *
  have hB1 : 0 ≤ d ^ 2 * UU := by positivity
  have hB2 : 0 ≤ d ^ 2 * RR * c.aspect ^ 2 := by positivity
  rw [leTanSq_iff_real _ _ hB1, leTanSq_iff_real _ _ hB2]
  have hsq : ∀ (w D N : ℝ), 0 ≤ D → 0 ≤ N →
      (|w| * Real.sqrt (FF : ℚ) ≤ D * Real.sqrt N * Real.tan (Real.pi / 8) ↔
        w ^ 2 * (FF : ℚ) ≤ D ^ 2 * N * Real.tan (Real.pi / 8) ^ 2) := by
    intro w D N hD hN
    have l0 : 0 ≤ |w| * Real.sqrt (FF : ℚ) := mul_nonneg (abs_nonneg w) (Real.sqrt_nonneg _)
    have r0 : 0 ≤ D * Real.sqrt N * Real.tan (Real.pi / 8) :=
      mul_nonneg (mul_nonneg hD (Real.sqrt_nonneg _)) ht
    have l1 : (|w| * Real.sqrt (FF : ℚ)) ^ 2 = w ^ 2 * (FF : ℚ) := by
      rw [mul_pow, Real.sq_sqrt hFF, sq_abs]
    have r1 : (D * Real.sqrt N * Real.tan (Real.pi / 8)) ^ 2 =
        D ^ 2 * N * Real.tan (Real.pi / 8) ^ 2 := by
      rw [mul_pow, mul_pow, Real.sq_sqrt hN]
    rw [← l1, ← r1, sq_le_sq, abs_of_nonneg l0, abs_of_nonneg r0]
  constructor
  · rintro ⟨h0, h1, h2, h3, h4⟩
    have hd0 : (0 : ℝ) ≤ d := by exact_mod_cast h0
    refine ⟨(mul_sqrt_le_iff _ _ _ hnr hFF hd0).2 (by exact_mod_cast h1),
      (le_mul_sqrt_iff _ _ _ hfr hFF hd0).2 (by exact_mod_cast h2),
      (hsq _ _ _ hd0 hUU).2 (by push_cast at h3; exact h3), ?_⟩
    have h5 := (hsq (v : ℝ) ((d : ℝ) * (c.aspect : ℝ)) _ (mul_nonneg hd0 har) hRR).2
      (by push_cast at h4; nlinarith [h4])
    calc |(v : ℝ)| * Real.sqrt (FF : ℚ)
        ≤ (d : ℝ) * (c.aspect : ℝ) * Real.sqrt (RR : ℚ) * Real.tan (Real.pi / 8) := h5
      _ = (d : ℝ) * Real.sqrt (RR : ℚ) * (c.aspect : ℝ) * Real.tan (Real.pi / 8) := by ring
  · rintro ⟨h1, h2, h3, h4⟩
    have hd0 : (0 : ℝ) ≤ d := le_trans (mul_nonneg hnr (Real.sqrt_nonneg _)) h1
    have h5 : |(v : ℝ)| * Real.sqrt (FF : ℚ) ≤
        (d : ℝ) * (c.aspect : ℝ) * Real.sqrt (RR : ℚ) * Real.tan (Real.pi / 8) := by
      calc |(v : ℝ)| * Real.sqrt (FF : ℚ)
          ≤ (d : ℝ) * Real.sqrt (RR : ℚ) * (c.aspect : ℝ) * Real.tan (Real.pi / 8) := h4
        _ = (d : ℝ) * (c.aspect : ℝ) * Real.sqrt (RR : ℚ) * Real.tan (Real.pi / 8) := by ring
    have h6 := (hsq _ _ _ (mul_nonneg hd0 har) hRR).1 h5
    refine ⟨by exact_mod_cast hd0,
      by exact_mod_cast (mul_sqrt_le_iff _ _ _ hnr hFF hd0).1 h1,
      by exact_mod_cast (le_mul_sqrt_iff _ _ _ hfr hFF hd0).1 h2,
      by push_cast; exact (hsq _ _ _ hd0 hUU).1 h3,
      by push_cast; nlinarith [h6]⟩

theorem leTanSq_of_le (A B : ℚ) (hB : 0 ≤ B) (h : A ≤ 1715 / 10000 * B) :
    leTanSq A B = true := by
  simp only [leTanSq, Bool.and_eq_true, decide_eq_true_eq]
  constructor
  · linarith
  · have h3 : 28285 / 10000 * B ≤ 3 * B - A := by linarith
    have h4 : (28285 / 10000 * B) ^ 2 ≤ (3 * B - A) ^ 2 :=
      pow_le_pow_left₀ (by positivity) h3 2
    nlinarith [mul_nonneg hB hB]

set_option maxHeartbeats 1600000 in
theorem sees_of_ball (fov asp S : ℚ) (p : Vector3) (ha : 1 ≤ asp) (h1 : 7 ≤ S)
    (h2 : S ≤ 450) (hp : 4 * p.lengthSq ≤ (1001 / 1000 * S) ^ 2) :
    Camera.sees
      { fov := fov, aspect := asp, near := 0.1, far := 1000,
        position := ⟨0, 0, S * 1.5⟩, target := ⟨0, -0.5, 0⟩ } p = true := by
  obtain ⟨x, y, z⟩ := p
  obtain ⟨r, hr⟩ : ∃ r : ℚ, S = 2 * r := ⟨S / 2, by ring⟩
  subst hr
  simp only [Vector3.lengthSq, Vector3.dot] at hp
  have hr1 : 7 / 2 ≤ r := by linarith
  have hr2 : r ≤ 225 := by linarith
  have hr0 : 0 ≤ r := by linarith
  have hxyz : x ^ 2 + y ^ 2 + z ^ 2 ≤ (1001 / 1000 * r) ^ 2 := by nlinarith
  have hyz : y ^ 2 + z ^ 2 ≤ (1001 / 1000 * r) ^ 2 := by nlinarith [sq_nonneg x]
  obtain ⟨hd1, hd2⟩ := depth_bounds y z r hr0 hyz
  have hv := vertical_bound y z r hr1 hyz
  have hh := horizontal_bound x y z r hr1 hxyz
  have hlow : 0 ≤ 5997 / 1000 * r ^ 2 - 1001 / 2000 * r := by nlinarith
  have hd0 : 0 ≤ 9 * r ^ 2 - (3 * r * z + y / 2) := by linarith
  have hsq1 : (5997 / 1000 * r ^ 2 - 1001 / 2000 * r) ^ 2 ≤
      (9 * r ^ 2 - (3 * r * z + y / 2)) ^ 2 :=
    pow_le_pow_left₀ hlow hd1 2
  have hsq2 : (9 * r ^ 2 - (3 * r * z + y / 2)) ^ 2 ≤
      (12003 / 1000 * r ^ 2 + 1001 / 2000 * r) ^ 2 :=
    pow_le_pow_left₀ hd0 hd2 2
  simp only [Camera.sees, Camera.forward, Camera.right, Camera.upward, Vector3.sub,
    Vector3.dot, Vector3.cross, Vector3.lengthSq, Bool.and_eq_true, decide_eq_true_eq]
  have c2 := near_bound r hr1
  have c3 := far_bound r hr0 hr2
  have k2 := le_trans c2 hsq1
  have k3 := le_trans hsq2 c3
  have k4 := mul_le_mul_of_nonneg_left hv
    (show (0 : ℚ) ≤ (3 * r) ^ 2 * (9 * r ^ 2 + 1 / 4) by positivity)
  have h6 : (1 : ℚ) ≤ asp ^ 2 := by nlinarith
  have k5 : (3 * r) ^ 2 * (x ^ 2 * (9 * r ^ 2 + 1 / 4)) ≤
      (3 * r) ^ 2 * (1715 / 10000 * (9 * r ^ 2 - (3 * r * z + y / 2)) ^ 2) * asp ^ 2 :=
    le_trans (mul_le_mul_of_nonneg_left hh (by positivity))
      (le_mul_of_one_le_right (by positivity) h6)
  refine ⟨⟨⟨⟨?_, ?_⟩, ?_⟩, ?_⟩, ?_⟩
  · norm_num
    linarith
  · norm_num
    refine le_trans (le_of_eq ?_) (le_trans k2 (le_of_eq ?_)) <;> ring
  · norm_num
    refine le_trans (le_of_eq ?_) (le_trans k3 (le_of_eq ?_)) <;> ring
  · apply leTanSq_of_le
    · norm_num
      positivity
    · norm_num
      refine le_trans (le_of_eq ?_) (le_trans k4 (le_of_eq ?_)) <;> ring
  · apply leTanSq_of_le
    · norm_num
      positivity
    · norm_num
      refine le_trans (le_of_eq ?_) (le_trans k5 (le_of_eq ?_)) <;> ring

theorem getCenter_of_isEmpty (b : Box3) (h : b.isEmpty = true) : b.getCenter = ⟨0, 0, 0⟩ := by
  simp only [Box3.getCenter, h, if_true]

theorem getCenter_of_nonempty (b : Box3) (h : b.isEmpty = false) :
    b.getCenter = ⟨(b.min.x + b.max.x) * (1 / 2), (b.min.y + b.max.y) * (1 / 2),
      (b.min.z + b.max.z) * (1 / 2)⟩ := by
  simp only [Box3.getCenter, h, Bool.false_eq_true, if_false]

theorem getSize_of_nonempty (b : Box3) (h : b.isEmpty = false) : b.getSize = b.max.sub b.min := by
  simp only [Box3.getSize, h, Bool.false_eq_true, if_false]

theorem centred_isEmpty (gltf : Model) :
    (Box3.setFromObject
      { gltf with position := gltf.position.sub (Box3.setFromObject gltf).getCenter }).isEmpty =
    (Box3.setFromObject gltf).isEmpty := by
  simp only [Box3.isEmpty, Box3.setFromObject, Vector3.add, Vector3.sub, add_lt_add_iff_right]

theorem centred_corners (gltf : Model) (hne : (Box3.setFromObject gltf).isEmpty = false)
    (p : Vector3)
    (hp : p ∈ (Box3.setFromObject
      { gltf with position := gltf.position.sub (Box3.setFromObject gltf).getCenter }).corners) :
    4 * p.lengthSq = (Box3.setFromObject gltf).getSize.lengthSq := by
  rw [getSize_of_nonempty _ hne]
  rw [getCenter_of_nonempty _ hne] at hp
  simp only [Box3.corners, Box3.setFromObject, Vector3.add, Vector3.sub, List.mem_cons,
    List.mem_singleton, List.not_mem_nil, or_false] at hp
  rcases hp with h | h | h | h | h | h | h | h <;> subst h <;>
    simp only [Vector3.lengthSq, Vector3.dot, Box3.setFromObject, Vector3.add, Vector3.sub] <;>
    ring

/-- Every size vector has a rational value within one part in a thousand of its
Euclidean length, also when that length is irrational. -/
theorem exists_length_approx (v : Vector3) :
    ∃ S : ℚ, 0 ≤ S ∧ S ^ 2 ≤ v.lengthSq ∧ v.lengthSq ≤ (1001 / 1000 * S) ^ 2 := by
  have h0 := v.lengthSq_nonneg
  by_cases hz : v.lengthSq = 0
  · exact ⟨0, le_refl 0, by rw [hz]; norm_num, by rw [hz]; norm_num⟩
  · have hpos : (0 : ℝ) < (v.lengthSq : ℚ) := by
      exact_mod_cast lt_of_le_of_ne h0 (Ne.symm hz)
    have hL : 0 < Real.sqrt (v.lengthSq : ℚ) := Real.sqrt_pos.2 hpos
    have hlt : 1000 / 1001 * Real.sqrt (v.lengthSq : ℚ) < Real.sqrt (v.lengthSq : ℚ) := by
      nlinarith
    obtain ⟨q, hq1, hq2⟩ := exists_rat_btwn hlt
    have hq0 : (0 : ℝ) < q := lt_trans (by positivity) hq1
    have hsq : Real.sqrt (v.lengthSq : ℚ) ^ 2 = (v.lengthSq : ℚ) := Real.sq_sqrt hpos.le
    refine ⟨q, by exact_mod_cast hq0.le, ?_, ?_⟩
    · have : (q : ℝ) ^ 2 ≤ (v.lengthSq : ℚ) := by
        rw [← hsq]
        exact pow_le_pow_left₀ hq0.le hq2.le 2
      exact_mod_cast this
    · have h1 : Real.sqrt (v.lengthSq : ℚ) ≤ 1001 / 1000 * (q : ℝ) := by linarith
      have h2 : ((v.lengthSq : ℚ) : ℝ) ≤ (1001 / 1000 * (q : ℝ)) ^ 2 := by
        rw [← hsq]
        exact pow_le_pow_left₀ hL.le h1 2
      have h3 : ((v.lengthSq : ℚ) : ℝ) ≤ (((1001 / 1000 * q) ^ 2 : ℚ) : ℝ) := by
        push_cast
        exact h2
      exact Rat.cast_le.1 h3

/-- C10 (amended): for every model, after the load callback the world bounding box of
the model is centred on the origin (for a non-empty box the two extreme corners are
opposite and the size is unchanged), and the camera is at `(0, 0, 1.5 * S)`, `S` the value
`length` returns for the size of the box, looking at `(0, -0.5, 0)` with its field of view
and aspect ratio unchanged.  When `S` is not more than one part in a thousand below the
length of the diagonal, which may be irrational, `7 ≤ S ≤ 450`, the aspect ratio is at
least `1` and the clipping planes are those of line 60, every corner of the box is inside
the view frustum. -/
theorem onLoad_centres_and_frames (length : Vector3 → ℚ) (s : AppState) (gltf : Model)
    (camera : Camera) (hc : s.cameraRef = some camera) :
    ∃ model1 camera1,
      (onLoad length s gltf).modelRef = some model1 ∧
      (onLoad length s gltf).cameraRef = some camera1 ∧
      (Box3.setFromObject model1).getCenter = ⟨0, 0, 0⟩ ∧
      ((Box3.setFromObject gltf).isEmpty = false →
        (Box3.setFromObject model1).min.add (Box3.setFromObject model1).max = ⟨0, 0, 0⟩ ∧
        (Box3.setFromObject model1).getSize = (Box3.setFromObject gltf).getSize) ∧
      camera1.position = ⟨0, 0, length (Box3.setFromObject gltf).getSize * 1.5⟩ ∧
      camera1.target = ⟨0, -0.5, 0⟩ ∧
      camera1.fov = camera.fov ∧ camera1.aspect = camera.aspect ∧
      ((Box3.setFromObject gltf).isEmpty = false →
        camera.fov = 45 → camera.near = 0.1 → camera.far = 1000 → 1 ≤ camera.aspect →
        (Box3.setFromObject gltf).getSize.lengthSq ≤
          (1001 / 1000 * length (Box3.setFromObject gltf).getSize) ^ 2 →
        7 ≤ length (Box3.setFromObject gltf).getSize →
        length (Box3.setFromObject gltf).getSize ≤ 450 →
        InView (onLoad length s gltf)) := by
  refine ⟨{ gltf with position := gltf.position.sub (Box3.setFromObject gltf).getCenter },
    { camera with
      position := ⟨0, 0, length (Box3.setFromObject gltf).getSize * 1.5⟩
      target := ⟨0, -0.5, 0⟩ },
    rfl, by simp only [onLoad, hc, Option.map_some'], ?_, ?_, rfl, rfl, rfl, rfl, ?_⟩
  · by_cases he : (Box3.setFromObject gltf).isEmpty = true
    · exact getCenter_of_isEmpty _ ((centred_isEmpty gltf).trans he)
    · have he0 : (Box3.setFromObject gltf).isEmpty = false := by simpa using he
      rw [getCenter_of_nonempty _ ((centred_isEmpty gltf).trans he0),
        getCenter_of_nonempty _ he0]
      simp only [Box3.setFromObject, Vector3.add, Vector3.sub, Vector3.mk.injEq]
      refine ⟨?_, ?_, ?_⟩ <;> ring
  · intro he0
    constructor
    · rw [getCenter_of_nonempty _ he0]
      simp only [Box3.setFromObject, Vector3.add, Vector3.sub, Vector3.mk.injEq]
      refine ⟨?_, ?_, ?_⟩ <;> ring
    · rw [getSize_of_nonempty _ ((centred_isEmpty gltf).trans he0), getSize_of_nonempty _ he0,
        getCenter_of_nonempty _ he0]
      simp only [Box3.setFromObject, Vector3.add, Vector3.sub, Vector3.mk.injEq]
      refine ⟨?_, ?_, ?_⟩ <;> ring
  · intro he0 _ hnear hfar hasp hS h7 h450
    refine ⟨{ gltf with position := gltf.position.sub (Box3.setFromObject gltf).getCenter },
      { camera with
        position := ⟨0, 0, length (Box3.setFromObject gltf).getSize * 1.5⟩
        target := ⟨0, -0.5, 0⟩ },
      rfl, by simp only [onLoad, hc, Option.map_some'], ?_⟩
    intro p hp
    have h4 := centred_corners gltf he0 p hp
    rw [hnear, hfar]
    exact sees_of_ball camera.fov camera.aspect _ p hasp h7 h450 (by rw [h4]; exact hS)

theorem onLoad_centres_and_frames_witness :
    InView cubeLoaded ∧
    (Box3.setFromObject cubeModel).getSize.lengthSq = 300 ∧
    ∃ model1, cubeLoaded.modelRef = some model1 ∧
      (Box3.setFromObject model1).getCenter = ⟨0, 0, 0⟩ := by
  obtain ⟨model1, camera1, h1, -, h3, -, -, -, -, -, h9⟩ :=
    onLoad_centres_and_frames cubeLength (onContextCreate initialState 800 400) cubeModel
      { fov := 45, aspect := 2, near := 0.1, far := 1000, position := ⟨0, 0, 0⟩,
        target := ⟨0, 0, -1⟩ } (by decide!)
  exact ⟨h9 (by decide!) (by decide!) (by decide!) (by decide!) (by decide!) (by decide!)
    (by decide!) (by decide!), by decide!, model1, h1, h3⟩

/-- C10 as stated fails.  `demoModel` has a bounding box of 8 by 4 by 1 with diagonal 9;
loaded into a portrait buffer of 400 by 800 the camera stands at `(0, 0, 13.5)` and the
corner `(4, 2, 1/2)` of the centred box is outside the frustum.  `tinyModel`, a thousand
times smaller, is loaded into a square buffer; the camera stands at `(0, 0, 0.0135)`,
closer to the model than the near plane, and the corner `(0.004, 0.002, 0.0005)` is
outside the frustum. -/
theorem onLoad_box_outside_frustum :
    (0 ≤ demoLength (Box3.setFromObject demoModel).getSize ∧
      demoLength (Box3.setFromObject demoModel).getSize ^ 2 =
        (Box3.setFromObject demoModel).getSize.lengthSq ∧
      demoLoaded = onLoad demoLength (onContextCreate initialState 400 800) demoModel ∧
      ¬ InView demoLoaded) ∧
    (0 ≤ tinyLength (Box3.setFromObject tinyModel).getSize ∧
      tinyLength (Box3.setFromObject tinyModel).getSize ^ 2 =
        (Box3.setFromObject tinyModel).getSize.lengthSq ∧
      tinyLoaded = onLoad tinyLength (onContextCreate initialState 800 800) tinyModel ∧
      ¬ InView tinyLoaded) := by
  refine ⟨⟨by decide!, by decide!, rfl, ?_⟩, ⟨by decide!, by decide!, rfl, ?_⟩⟩
  · rintro ⟨model, camera, hm, hc, h⟩
    have hm1 : demoLoaded.modelRef = some demoCentered := by decide!
    have hc1 : demoLoaded.cameraRef = some demoCamera := by decide!
    rw [hm1] at hm
    rw [hc1] at hc
    cases hm
    cases hc
    exact absurd (h ⟨4, 2, 1 / 2⟩ (by decide!)) (by decide!)
  · rintro ⟨model, camera, hm, hc, h⟩
    have hm1 : tinyLoaded.modelRef =
        some { tinyModel with position := ⟨-(4 / 1000), -(2 / 1000), -(1 / 2000)⟩ } := by
      decide!
    have hc1 : tinyLoaded.cameraRef =
        some { fov := 45, aspect := 1, near := 0.1, far := 1000,
               position := ⟨0, 0, 27 / 2000⟩, target := ⟨0, -0.5, 0⟩ } := by
      decide!
    rw [hm1] at hm
    rw [hc1] at hc
    cases hm
    cases hc
    exact absurd (h ⟨4 / 1000, 2 / 1000, 1 / 2000⟩ (by decide!)) (by decide!)


end App
